import Mathlib

/-!
Verifier bookkeeping of the zedagent (`cmd/zedagent/handleverifier.go`), the
start of the volume manager (`pkg/pillar/cmd/volumemgr/volumemgr.go`) and the
container bundle helpers (`pkg/pillar/containerd/containerd.go`)

A shallow embedding of the verifier config store, the verifier status cache
and the storage-status aggregator (namespace `Zedagent`), of the loop that
waits for the verifiers and the period of the GC ticker (namespace
`Volumemgr`), and of `SnapshotRm`, `createMountPointExecEnvFiles` and
`getContainerConfigs` (namespace `Containerd`), followed by the properties
proved about them.

Conventions of the embedding

* The two process-wide Go maps `verifierConfigMap` and `verifierStatusMap`
  are association lists.  A lookup returns the first pair with the key; an
  assignment drops every pair with the key and puts the new pair in front; a
  `delete` drops every pair with the key.  `range` over a map visits the
  pairs in list order: Go leaves that order unspecified, and a statement
  quantified over every list covers every order.  Statements about several
  calls in a row use `Run`, where every call may find the maps in another
  order.
* The reference counter is an integer with exact `+ 1` and `- 1`; the width
  of the Go counter is declared outside this file.
* Everything the handlers use that is declared outside this file of the
  repository (key derivation, safe-name helpers, directory names, the state
  constants, the outcome of `os.Stat`) is a field of `Env`.
* Files written or removed for the downstream verifier and calls of the
  base-OS status handler are recorded, in order, in `World.downstream`.
* Log output is not modelled.
-/

-- The injectivity and `sizeOf` lemmas of the record types are not used below.
set_option genInjectivity false
set_option genSizeOfSpec false

namespace Zedagent

/-- The progress state `types.SwState`: an unsigned integer code, compared
numerically. -/
abbrev SwState := Nat

/-- The fields of `types.StorageConfig` the verifier handlers read. -/
structure StorageConfig where
  DownloadURL : String
  ImageSha256 : String
  CertificateChain : List String
  ImageSignature : List Nat
  SignatureKey : String

/-- The record `types.VerifyImageConfig`.  Its declaration is outside the
sources at hand; the fields are those `createVerifierConfig` fills in.  The
counter `RefCount` is an integer on which `+= 1` and `-= 1` are exact. -/
structure VerifyImageConfig where
  Safename : String
  DownloadURL : String
  ImageSha256 : String
  CertificateChain : List String
  ImageSignature : List Nat
  SignatureKey : String
  RefCount : Int

/-- The fields of `types.VerifyImageStatus` the handlers read. -/
structure VerifyImageStatus where
  Safename : String
  ImageSha256 : String
  PendingAdd : Bool
  PendingModify : Bool
  PendingDelete : Bool
  State : SwState
  LastErr : String
  LastErrTime : Nat
  Size : Int

/-- The fields of `types.StorageStatus` the aggregator reads or writes. -/
structure StorageStatus where
  State : SwState
  Error : String
  ErrorTime : Nat
  ActiveFileLocation : String

/-- The record `types.RetStatus` returned by the aggregator. -/
structure RetStatus where
  Changed : Bool
  MinState : SwState
  AllErrors : String
  ErrorTime : Nat

/-- What the handlers do towards other agents: write or remove the config
file of the downstream verifier, call the base-OS status handler. -/
inductive Downstream where
  | writeConfig (objType safename : String) (config : VerifyImageConfig)
  | deleteConfig (objType safename : String)
  | baseOsStatusUpdate (safename : String)

/-- What `handleverifier.go` takes from the rest of the repository and from
the file system.  `stat filename` is the error of `os.Stat filename`, `none`
when the call succeeds. -/
structure Env where
  formLookupKey : String → String → String
  UrlToSafename : String → String → String
  SafenameToFilename : String → String
  appendError : String → String → String → String
  certificateDirname : String
  objectDownloadDirname : String
  baseOsObj : String
  stat : String → Option String
  INITIAL : SwState
  DOWNLOADED : SwState
  DELIVERED : SwState
  INSTALLED : SwState
  MAXSTATE : SwState

/-- The mutable state of the file: both maps and the record of downstream
actions, oldest first. -/
structure World where
  verifierConfigMap : List (String × VerifyImageConfig)
  verifierStatusMap : List (String × VerifyImageStatus)
  downstream : List Downstream

/-- Go `m[key] = v`. -/
def mapSet {V : Type} (key : String) (v : V) (m : List (String × V)) : List (String × V) :=
  (key, v) :: m.filter (fun p => p.1 != key)

/-- Go `delete(m, key)`. -/
def mapDelete {V : Type} (key : String) (m : List (String × V)) : List (String × V) :=
  m.filter (fun p => p.1 != key)

/-- `initVerifierMaps`: a nil map becomes an empty one; both are the empty
list here, so the state is returned as it is. -/
def initVerifierMaps (w : World) : World := w

def verifierConfigGet (w : World) (key : String) : Option VerifyImageConfig :=
  w.verifierConfigMap.lookup key

/-- The first entry met by `range verifierConfigMap` whose digest is `sha`. -/
def verifierConfigGetSha256 (w : World) (sha : String) : Option VerifyImageConfig :=
  (w.verifierConfigMap.find? (fun p => p.2.ImageSha256 == sha)).map Prod.snd

def verifierConfigSet (key : String) (config : VerifyImageConfig) (w : World) : World :=
  { w with verifierConfigMap := mapSet key config w.verifierConfigMap }

def verifierStatusGet (w : World) (key : String) : Option VerifyImageStatus :=
  w.verifierStatusMap.lookup key

def verifierStatusSet (key : String) (status : VerifyImageStatus) (w : World) : World :=
  { w with verifierStatusMap := mapSet key status w.verifierStatusMap }

def verifierStatusDelete (key : String) (w : World) : World :=
  match verifierStatusGet w key with
  | some _ => { w with verifierStatusMap := mapDelete key w.verifierStatusMap }
  | none => w

/-- `writeVerifierConfig`: nothing for a nil config, else the config file of
the downstream verifier is (re)written. -/
def writeVerifierConfig (objType safename : String) (config : Option VerifyImageConfig)
    (w : World) : World :=
  match config with
  | none => w
  | some c => { w with downstream := w.downstream ++ [Downstream.writeConfig objType safename c] }

/-- `deleteVerifierConfig`: the config file of the downstream verifier is
removed (a failure of the removal is only logged). -/
def deleteVerifierConfig (objType safename : String) (w : World) : World :=
  { w with downstream := w.downstream ++ [Downstream.deleteConfig objType safename] }

/-- The file `checkCertsForObject` looks for, given a certificate URL. -/
def certFilename (env : Env) (url : String) : String :=
  env.certificateDirname ++ "/" ++ env.SafenameToFilename (env.UrlToSafename url "")

/-- The second loop of `checkCertsForObject`: the error of the first
non-empty chain entry whose file cannot be stat-ed. -/
def checkCertChain (env : Env) : List String → Option String
  | [] => none
  | certUrl :: rest =>
    if certUrl ≠ "" then
      match env.stat (certFilename env certUrl) with
      | some err => some err
      | none => checkCertChain env rest
    else checkCertChain env rest

/-- The counter `cidx` of `checkCertsForObject`. -/
def countCerts (sc : StorageConfig) : Nat :=
  (if sc.SignatureKey ≠ "" then 1 else 0) + (sc.CertificateChain.filter (fun u => u != "")).length

/-- `checkCertsForObject`: `none` is the nil error. -/
def checkCertsForObject (env : Env) (_safename : String) (sc : StorageConfig) : Option String :=
  if countCerts sc = 0 then none
  else
    match (if sc.SignatureKey ≠ "" then env.stat (certFilename env sc.SignatureKey) else none) with
    | some err => some err
    | none => checkCertChain env sc.CertificateChain

/-- `createVerifierConfig`: the returned error (`none` for nil) and the
state it leaves. -/
def createVerifierConfig (env : Env) (objType safename : String) (sc : StorageConfig)
    (checkCerts : Bool) (w : World) : Option String × World :=
  let w := initVerifierMaps w
  match (if checkCerts then checkCertsForObject env safename sc else none) with
  | some err => (some err, w)
  | none =>
    let key := env.formLookupKey objType safename
    let w1 :=
      match verifierConfigGet w key with
      | some m => verifierConfigSet key { m with RefCount := m.RefCount + 1 } w
      | none =>
        verifierConfigSet key
          { Safename := safename
            DownloadURL := sc.DownloadURL
            ImageSha256 := sc.ImageSha256
            CertificateChain := sc.CertificateChain
            ImageSignature := sc.ImageSignature
            SignatureKey := sc.SignatureKey
            RefCount := 1 } w
    (none, writeVerifierConfig objType safename (verifierConfigGet w1 key) w1)

/-- `updateVerifierStatus`; the context argument is only handed on to the
base-OS handler and is left out. -/
def updateVerifierStatus (env : Env) (objType : String) (status : VerifyImageStatus)
    (w : World) : World :=
  let w := initVerifierMaps w
  let key := env.formLookupKey objType status.Safename
  if status.PendingAdd || status.PendingModify || status.PendingDelete then w
  else
    let changed : Bool :=
      match verifierStatusGet w key with
      | some m =>
        if status.State ≠ m.State then true
        else if status.Size ≠ m.Size then true
        else false
      | none => true
    if changed then
      let w1 := verifierStatusSet key status w
      if objType = env.baseOsObj then
        { w1 with downstream := w1.downstream ++ [Downstream.baseOsStatusUpdate status.Safename] }
      else w1
    else w

/-- `MaybeRemoveVerifierConfigSha256`. -/
def MaybeRemoveVerifierConfigSha256 (env : Env) (objType sha256 : String) (w : World) : World :=
  match verifierConfigGetSha256 w sha256 with
  | none => w
  | some m =>
    let safename := m.Safename
    let key := env.formLookupKey objType safename
    let m1 : VerifyImageConfig := { m with RefCount := m.RefCount - 1 }
    if m1.RefCount ≠ 0 then
      writeVerifierConfig objType safename (some m1) (verifierConfigSet key m1 w)
    else
      deleteVerifierConfig objType safename
        { w with verifierConfigMap := mapDelete key w.verifierConfigMap }

def removeVerifierStatus (env : Env) (objType safename : String) (w : World) : World :=
  verifierStatusDelete (env.formLookupKey objType safename) w

/-- `lookupVerificationStatusSha256`: `none` stands for the error return. -/
def lookupVerificationStatusSha256 (w : World) (_objType sha256 : String) :
    Option VerifyImageStatus :=
  (w.verifierStatusMap.find? (fun p => p.2.ImageSha256 == sha256)).map Prod.snd

/-- `lookupVerificationStatus`: `none` stands for the error return. -/
def lookupVerificationStatus (env : Env) (w : World) (objType safename : String) :
    Option VerifyImageStatus :=
  verifierStatusGet w (env.formLookupKey objType safename)

/-- `lookupVerificationStatusAny`: by safe name first, by digest second. -/
def lookupVerificationStatusAny (env : Env) (w : World) (objType safename sha256 : String) :
    Option VerifyImageStatus :=
  match lookupVerificationStatus env w objType safename with
  | some m => some m
  | none => lookupVerificationStatusSha256 w objType sha256

/-- The body of the loop of `checkStorageVerifierStatus` for one storage
config `sc` and its status record `ss`: the result record and the status
record after the iteration. -/
def checkStorageItem (env : Env) (w : World) (objType : String) (sc : StorageConfig)
    (ss : StorageStatus) (ret : RetStatus) : RetStatus × StorageStatus :=
  let safename := env.UrlToSafename sc.DownloadURL sc.ImageSha256
  if ss.State = env.INSTALLED then
    ({ ret with MinState := ss.State }, ss)
  else
    match lookupVerificationStatusAny env w objType safename sc.ImageSha256 with
    | none => ({ ret with MinState := env.DOWNLOADED }, ss)
    | some vs =>
      let ret1 : RetStatus :=
        if ret.MinState > vs.State then { ret with MinState := vs.State } else ret
      let ss1 : StorageStatus :=
        if vs.State ≠ ss.State then { ss with State := vs.State } else ss
      let ret2 : RetStatus :=
        if vs.State ≠ ss.State then { ret1 with Changed := true } else ret1
      if vs.State = env.INITIAL then
        ({ ret2 with
            AllErrors := env.appendError ret2.AllErrors "verifier" vs.LastErr
            ErrorTime := vs.LastErrTime
            Changed := true },
         { ss1 with Error := vs.LastErr, ErrorTime := vs.LastErrTime })
      else
        ({ ret2 with Changed := true },
         { ss1 with
            ActiveFileLocation := env.objectDownloadDirname ++ "/" ++ objType ++ "/" ++ vs.Safename })

/-- The loop `for i, sc := range config` of `checkStorageVerifierStatus`,
from index `i` on.  `status[i]` beyond the end of the slice is a run-time
panic: the result is then `none`. -/
def checkStorageLoop (env : Env) (w : World) (objType : String) :
    Nat → List StorageConfig → List StorageStatus → RetStatus →
      Option (RetStatus × List StorageStatus)
  | _, [], status, ret => some (ret, status)
  | i, sc :: rest, status, ret =>
    match status.get? i with
    | none => none
    | some ss =>
      let r := checkStorageItem env w objType sc ss ret
      checkStorageLoop env w objType (i + 1) rest (status.set i r.2) r.1

/-- `checkStorageVerifierStatus`: the returned record and the status slice
as the call leaves it; `none` when the call panics.  `uuidStr` only enters
the log lines. -/
def checkStorageVerifierStatus (env : Env) (w : World) (objType _uuidStr : String)
    (config : List StorageConfig) (status : List StorageStatus) :
    Option (RetStatus × List StorageStatus) :=
  let ret : RetStatus :=
    { Changed := false, MinState := env.MAXSTATE, AllErrors := "", ErrorTime := 0 }
  match checkStorageLoop env w objType 0 config status ret with
  | none => none
  | some (ret1, status1) =>
    if ret1.MinState = env.MAXSTATE then
      some ({ ret1 with MinState := env.DELIVERED }, status1)
    else some (ret1, status1)

/-- Modelled from the spec: the state constants and helpers that
`handleverifier.go` uses and that are declared elsewhere in the repository.
The states take the spec's order INITIAL < DOWNLOADED < INSTALLED <
DELIVERED < MAXSTATE (section 3, Progress State); keys and safe names are
built by joining their parts, and no certificate file is on disk. -/
def sampleEnv : Env :=
  { formLookupKey := fun objType name => objType ++ "x" ++ name
    UrlToSafename := fun url sha => url ++ "." ++ sha
    SafenameToFilename := fun name => name
    appendError := fun all src err => all ++ src ++ ": " ++ err ++ "\n"
    certificateDirname := "/certs"
    objectDownloadDirname := "/objects"
    baseOsObj := "baseOs.obj"
    stat := fun _ => some "no such file or directory"
    INITIAL := 1
    DOWNLOADED := 2
    INSTALLED := 3
    DELIVERED := 4
    MAXSTATE := 5 }

/-- The entry `createVerifierConfig` inserts for a safe name that has none. -/
def newVerifierConfig (safename : String) (sc : StorageConfig) : VerifyImageConfig :=
  { Safename := safename
    DownloadURL := sc.DownloadURL
    ImageSha256 := sc.ImageSha256
    CertificateChain := sc.CertificateChain
    ImageSignature := sc.ImageSignature
    SignatureKey := sc.SignatureKey
    RefCount := 1 }

/-- A storage config references a signing key or a certificate whose file
cannot be stat-ed. -/
def missingCert (env : Env) (sc : StorageConfig) : Prop :=
  (sc.SignatureKey ≠ "" ∧ env.stat (certFilename env sc.SignatureKey) ≠ none) ∨
    ∃ u ∈ sc.CertificateChain, u ≠ "" ∧ env.stat (certFilename env u) ≠ none

/-- A state with empty maps and nothing done downstream. -/
def emptyWorld : World :=
  { verifierConfigMap := [], verifierStatusMap := [], downstream := [] }

/-- An unsigned storage config, used as a concrete input. -/
def sampleStorage : StorageConfig :=
  { DownloadURL := "http://img/a"
    ImageSha256 := "abc"
    CertificateChain := []
    ImageSignature := []
    SignatureKey := "" }

/-- A storage config signed with a key, used as a concrete input. -/
def signedStorage : StorageConfig :=
  { DownloadURL := "http://img/b"
    ImageSha256 := "def"
    CertificateChain := ["http://ca/1"]
    ImageSignature := [1, 2]
    SignatureKey := "http://key/1" }

/-- A store with one entry, referenced three times. -/
def heldWorld : World :=
  { verifierConfigMap :=
      [("appImg.objxa.abc", { newVerifierConfig "a.abc" sampleStorage with RefCount := 3 })]
    verifierStatusMap := []
    downstream := [] }

/-- A call that changes the verifier config store. -/
inductive Call where
  | create (objType safename : String) (sc : StorageConfig) (checkCerts : Bool)
  | release (objType sha256 : String)

/-- The state a call leaves; the error of `createVerifierConfig` is dropped. -/
def Call.apply (env : Env) : Call → World → World
  | Call.create objType safename sc checkCerts, w =>
    (createVerifierConfig env objType safename sc checkCerts w).2
  | Call.release objType sha256, w => MaybeRemoveVerifierConfigSha256 env objType sha256 w

/-- A sequence of calls, each on the state the one before left, with the maps
ranged over in list order. -/
def runCalls (env : Env) : List Call → World → World
  | [], w => w
  | c :: cs, w => runCalls env cs (Call.apply env c w)

/-- Two states with the same maps and the same downstream record, the maps
possibly ranged over in a different order. -/
def SameMaps (w w0 : World) : Prop :=
  w.verifierConfigMap.Perm w0.verifierConfigMap ∧
    w.verifierStatusMap.Perm w0.verifierStatusMap ∧ w.downstream = w0.downstream

/-- The states a sequence of calls can lead to from `w`, `Run env calls w w1`,
when every call may find the maps in any iteration order. -/
inductive Run (env : Env) : List Call → World → World → Prop
  | done (w : World) : Run env [] w w
  | step (c : Call) (cs : List Call) (w w0 w1 : World) :
      SameMaps w w0 → Run env cs (Call.apply env c w0) w1 → Run env (c :: cs) w w1

/-- Every entry of the config store is referenced at least once. -/
def RefCountsPositive (w : World) : Prop :=
  ∀ p ∈ w.verifierConfigMap, 1 ≤ p.2.RefCount

/-- The calls of the referrers of one image: a `createVerifierConfig objType
safename` per storage config and `checkCerts` flag, in order. -/
def createCalls (objType safename : String) (args : List (StorageConfig × Bool)) : List Call :=
  args.map (fun a => Call.create objType safename a.1 a.2)

/-- The call `MaybeRemoveVerifierConfigSha256 objType sha`, `m` times. -/
def releaseCalls (objType sha : String) (m : Nat) : List Call :=
  List.replicate m (Call.release objType sha)

/-- No config file of the downstream verifier is deleted in `ds`. -/
def noDelete (ds : List Downstream) : Prop :=
  ∀ d ∈ ds, ∀ t s, d ≠ Downstream.deleteConfig t s

/-- The state `w1` is `w` after the entry `e` under `key` got `k` references
that are still held: for `k` at least 1 the config store is the one of `w`
plus `e` with `RefCount` `k` and nothing was deleted downstream since `w`; for
`k = 0` the config store is the one of `w` again and the last downstream
action, the only deletion, removed the config file of `e`. -/
def Refs (key objType : String) (e : VerifyImageConfig) (w : World) (k : Nat) (w1 : World) :
    Prop :=
  ∃ ds, noDelete ds ∧
    match k with
    | 0 =>
      w1.verifierConfigMap.Perm w.verifierConfigMap ∧
        w1.downstream = w.downstream ++ ds ++ [Downstream.deleteConfig objType e.Safename]
    | j + 1 =>
      w1.verifierConfigMap.Perm
          ((key, { e with RefCount := ((j + 1 : Nat) : Int) }) :: w.verifierConfigMap) ∧
        w1.downstream = w.downstream ++ ds

/-- Two referrers of the same image; the second asks for a certificate check. -/
def twoReferrers : List (StorageConfig × Bool) :=
  [(sampleStorage, false), (sampleStorage, true)]

/-- A store with one entry for another image, referenced once. -/
def otherWorld : World :=
  { verifierConfigMap := [("appImg.objxb.def", newVerifierConfig "b.def" signedStorage)]
    verifierStatusMap := []
    downstream := [] }

/-- The config store of `w` is a map (no key twice) without an entry under
`key` and without an entry of digest `sha`. -/
def Fresh (key sha : String) (w : World) : Prop :=
  (w.verifierConfigMap.map Prod.fst).Nodup ∧ verifierConfigGet w key = none ∧
    ∀ p ∈ w.verifierConfigMap, p.2.ImageSha256 ≠ sha

/-- Two references to one image, a release of it and a reference to a signed
image, used as a concrete sequence of calls. -/
def sampleCalls : List Call :=
  [Call.create "appImg.obj" "a.abc" sampleStorage false,
   Call.create "appImg.obj" "a.abc" sampleStorage true,
   Call.release "appImg.obj" "abc",
   Call.create "appImg.obj" "b.def" signedStorage false]

/-- A verifier status without a pending flag, used as a concrete input. -/
def sampleStatus (safename sha : String) (state : SwState) (size : Int) : VerifyImageStatus :=
  { Safename := safename
    ImageSha256 := sha
    PendingAdd := false
    PendingModify := false
    PendingDelete := false
    State := state
    LastErr := "signature mismatch"
    LastErrTime := 7
    Size := size }

/-- A state whose status cache holds one base-OS image, downloaded. -/
def cachedWorld : World :=
  { verifierConfigMap := []
    verifierStatusMap := [("baseOs.objxa.abc", sampleStatus "a.abc" "abc" 2 100)]
    downstream := [] }

/-- The state of one item as the aggregate is meant to count it: the item's
prior state when that is INSTALLED, DOWNLOADED when neither lookup finds a
verifier status, the state of the verifier status found otherwise. -/
def itemState (env : Env) (w : World) (objType : String) (sc : StorageConfig)
    (ss : StorageStatus) : SwState :=
  if ss.State = env.INSTALLED then ss.State
  else
    match lookupVerificationStatusAny env w objType
        (env.UrlToSafename sc.DownloadURL sc.ImageSha256) sc.ImageSha256 with
    | none => env.DOWNLOADED
    | some vs => vs.State

/-- The minimum of `itemState` over the items, written from the sentence
"aggregate object state = minimum across all item states"; `none` for an
empty list. -/
def minItemState (env : Env) (w : World) (objType : String) (config : List StorageConfig)
    (status : List StorageStatus) : Option SwState :=
  (List.zipWith (itemState env w objType) config status).min?

/-- An object with two storage items: the status records of the items, the
first not yet handled, the second already INSTALLED. -/
def twoStatuses (env : Env) : List StorageStatus :=
  [{ State := 0, Error := "", ErrorTime := 0, ActiveFileLocation := "" },
   { State := env.INSTALLED, Error := "", ErrorTime := 0, ActiveFileLocation := "" }]

/-- A state whose status cache holds, under the key of the first item of
`[sampleStorage, signedStorage]`, a verifier status in state INITIAL: the
verification of that item failed. -/
def failedWorld (env : Env) (objType : String) : World :=
  { verifierConfigMap := []
    verifierStatusMap :=
      [(env.formLookupKey objType
          (env.UrlToSafename sampleStorage.DownloadURL sampleStorage.ImageSha256),
        sampleStatus (env.UrlToSafename sampleStorage.DownloadURL sampleStorage.ImageSha256)
          sampleStorage.ImageSha256 env.INITIAL 0)]
    downstream := [] }

/-- A status that agrees with the entry of `cachedWorld` in state and size
and reports another error text. -/
def laterStatus : VerifyImageStatus :=
  { sampleStatus "a.abc" "abc" 2 100 with LastErr := "retry failed", LastErrTime := 9 }

/-- The verifier status `checkStorageVerifierStatus` resolves for a storage
config: the lookup of its loop body, by safe name first and by digest second. -/
def resolveItem (env : Env) (w : World) (objType : String) (sc : StorageConfig) :
    Option VerifyImageStatus :=
  lookupVerificationStatusAny env w objType (env.UrlToSafename sc.DownloadURL sc.ImageSha256)
    sc.ImageSha256

/-- The loop of `checkStorageVerifierStatus` read along both slices at once:
the body `checkStorageItem` on the heads, then the tails; `none` when the
status slice ends before the config slice.  It is `checkStorageLoop` from
index 0 (`checkStorageLoop_zero`). -/
def aggregateItems (env : Env) (w : World) (objType : String) :
    List StorageConfig → List StorageStatus → RetStatus →
      Option (RetStatus × List StorageStatus)
  | [], status, ret => some (ret, status)
  | _ :: _, [], _ => none
  | sc :: cs, ss :: rest, ret =>
    match aggregateItems env w objType cs rest (checkStorageItem env w objType sc ss ret).1 with
    | none => none
    | some r => some (r.1, (checkStorageItem env w objType sc ss ret).2 :: r.2)

/-- The record `checkStorageVerifierStatus` starts from. -/
def initialRet (env : Env) : RetStatus :=
  { Changed := false, MinState := env.MAXSTATE, AllErrors := "", ErrorTime := 0 }

/-- The last step of `checkStorageVerifierStatus`: a `MinState` still at the
sentinel becomes DELIVERED. -/
def finishRet (env : Env) (ret : RetStatus) : RetStatus :=
  if ret.MinState = env.MAXSTATE then { ret with MinState := env.DELIVERED } else ret

/-- The error texts the aggregator collects, in item order: the `LastErr` of
every item that is not already INSTALLED and whose verifier status is found
in state INITIAL. -/
def failedErrors (env : Env) (w : World) (objType : String) :
    List StorageConfig → List StorageStatus → List String
  | sc :: cs, ss :: rest =>
    (if ss.State = env.INSTALLED then []
     else
      match resolveItem env w objType sc with
      | some vs => if vs.State = env.INITIAL then [vs.LastErr] else []
      | none => []) ++ failedErrors env w objType cs rest
  | _, _ => []

/-- Some item is not already INSTALLED and has a verifier status found by
the lookup. -/
def someItemResolved (env : Env) (w : World) (objType : String)
    (config : List StorageConfig) (status : List StorageStatus) : Prop :=
  ∃ (k : Nat) (sc : StorageConfig) (ss : StorageStatus),
    config[k]? = some sc ∧ status[k]? = some ss ∧ ss.State ≠ env.INSTALLED ∧
    (resolveItem env w objType sc).isSome = true

/-- The status records of two items that were not handled yet. -/
def pendingStatuses : List StorageStatus :=
  [{ State := 0, Error := "", ErrorTime := 0, ActiveFileLocation := "" },
   { State := 0, Error := "", ErrorTime := 0, ActiveFileLocation := "" }]

/-- A state whose status cache holds a verifier status for each item of
`[sampleStorage, signedStorage]` of object type `appImg.obj`, in the states
`s1` and `s2` and with the error texts `e1` and `e2`. -/
def twoItemWorld (env : Env) (s1 s2 : SwState) (e1 e2 : String) : World :=
  { verifierConfigMap := []
    verifierStatusMap :=
      [(env.formLookupKey "appImg.obj"
          (env.UrlToSafename sampleStorage.DownloadURL sampleStorage.ImageSha256),
        { sampleStatus (env.UrlToSafename sampleStorage.DownloadURL sampleStorage.ImageSha256)
            sampleStorage.ImageSha256 s1 0 with LastErr := e1 }),
       (env.formLookupKey "appImg.obj"
          (env.UrlToSafename signedStorage.DownloadURL signedStorage.ImageSha256),
        { sampleStatus (env.UrlToSafename signedStorage.DownloadURL signedStorage.ImageSha256)
            signedStorage.ImageSha256 s2 0 with LastErr := e2 })]
    downstream := [] }

/-- The lookup of an item gives the same outcome in two caches up to the
state, which is not lower in the second: both miss, or both find a status and
the state of the second is at least the state of the first. -/
def ResolvedLe (a b : Option VerifyImageStatus) : Prop :=
  match a, b with
  | none, none => True
  | some x, some y => x.State ≤ y.State
  | _, _ => False

instance (a b : Option VerifyImageStatus) : Decidable (ResolvedLe a b) := by
  unfold ResolvedLe
  cases a <;> cases b <;> simp only <;> infer_instance

/-- The states in play are proper states: either DELIVERED is the last state
before the sentinel MAXSTATE, or INSTALLED and DOWNLOADED are below the
sentinel and so is every state the lookup in `w` finds for an item. -/
def StatesBelowSentinel (env : Env) (w : World) (objType : String)
    (config : List StorageConfig) : Prop :=
  env.MAXSTATE = env.DELIVERED + 1 ∨
    (env.INSTALLED < env.MAXSTATE ∧ env.DOWNLOADED < env.MAXSTATE ∧
      ∀ sc ∈ config, ∀ vs, resolveItem env w objType sc = some vs → vs.State < env.MAXSTATE)

/-- The sum of the reference counts over all entries of the config store. -/
def refCountSum (w : World) : Int :=
  (w.verifierConfigMap.map (fun p => p.2.RefCount)).sum

end Zedagent

/-! ## The volume manager (`pkg/pillar/cmd/volumemgr/volumemgr.go`)

The part of `Run` that waits for the verifiers and the period of the
garbage-collection ticker. -/

namespace Volumemgr

/-- The two verifier status subscriptions whose `RestartHandler` is
`handleVerifierRestarted`: agent scope `types.AppImgObj` and agent scope
`types.BaseOsObj`. -/
inductive VerifierScope where
  | appImg
  | baseOs
deriving DecidableEq

/-- The fields of `volumemgrContext` read or written by the code embedded
here: `verifierRestarted` is a Go `uint`, `vdiskGCTime` a `uint32`, in
seconds. -/
structure volumemgrContext where
  verifierRestarted : Nat
  vdiskGCTime : Nat

/-- The context `Run` builds: `vdiskGCTime` 3600 and the zero value of
`verifierRestarted`. -/
def initialContext : volumemgrContext :=
  { verifierRestarted := 0, vdiskGCTime := 3600 }

/-- What one `select` of the loop "Waiting for verifierRestarted" takes: a
change of one of the two verifier status subscriptions that makes pubsub call
the restart handler with `done`, or any other message (global config, a
status, a worker result, the stillRunning tick), none of which writes
`verifierRestarted`. -/
inductive StartupEvent where
  | verifierRestarted (scope : VerifierScope) (done : Bool)
  | other
deriving DecidableEq

/-- `handleVerifierRestarted`: `ctx.verifierRestarted++` on a `uint`, when
`done`. -/
def handleVerifierRestarted (ctx : volumemgrContext) (done : Bool) : volumemgrContext :=
  if done then { ctx with verifierRestarted := (ctx.verifierRestarted + 1) % 2 ^ 64 } else ctx

/-- One iteration of the waiting loop on the message taken. -/
def processStartupEvent (ctx : volumemgrContext) : StartupEvent → volumemgrContext
  | StartupEvent.verifierRestarted _ done => handleVerifierRestarted ctx done
  | StartupEvent.other => ctx

/-- The loop `for ctx.verifierRestarted != 2` of `Run` on the messages that
arrive, oldest first: the context with which the loop is left and the
messages not yet taken, or `none` while the loop is still waiting when the
messages run out. -/
def waitForVerifierRestarted : List StartupEvent → volumemgrContext →
    Option (volumemgrContext × List StartupEvent)
  | [], ctx => if ctx.verifierRestarted ≠ 2 then none else some (ctx, [])
  | e :: rest, ctx =>
    if ctx.verifierRestarted ≠ 2 then waitForVerifierRestarted rest (processStartupEvent ctx e)
    else some (ctx, e :: rest)

/-- The number of restart signals with `done` set among the messages. -/
def doneSignals : List StartupEvent → Nat
  | [] => 0
  | StartupEvent.verifierRestarted _ true :: rest => doneSignals rest + 1
  | _ :: rest => doneSignals rest

/-- The number of restart signals with `done` set that come from `scope`. -/
def doneSignalsOf (scope : VerifierScope) (events : List StartupEvent) : Nat :=
  events.count (StartupEvent.verifierRestarted scope true)

/-- `time.Duration(ctx.vdiskGCTime / 10)`: the period of the GC ticker in
seconds, a `uint32` division. -/
def gcPeriodSeconds (ctx : volumemgrContext) : Nat :=
  ctx.vdiskGCTime / 10

/-- `duration * time.Second`: the argument of `time.NewTicker`, in
nanoseconds, an `int64` product. -/
def gcTickerDuration (ctx : volumemgrContext) : Int :=
  ((gcPeriodSeconds ctx : Int) * 1000000000 + 2 ^ 63) % 2 ^ 64 - 2 ^ 63

end Volumemgr

/-! ## Container bundles (`pkg/pillar/containerd/containerd.go`) -/

namespace Containerd

/-- The constant `containerRootfsPath`. -/
def containerRootfsPath : String := "rootfs/"

/-- What `SnapshotRm` calls outside the file: `filepath.Base`,
`filepath.Join`, and the three steps with their errors, `none` when the step
succeeds. -/
structure SnapshotOps where
  filepathBase : String → String
  filepathJoin : String → String → String
  unmount : String → Option String
  removeAll : String → Option String
  ctrRemoveSnapshot : String → Option String

/-- A step `SnapshotRm` attempts, with its argument. -/
inductive SnapshotStep where
  | unmount (target : String)
  | removeAll (path : String)
  | ctrRemoveSnapshot (snapshotID : String)

/-- `SnapshotRm`: the error returned (`none` for nil) and the steps
attempted, in order. -/
def SnapshotRm (ops : SnapshotOps) (rootPath : String) (silent : Bool) :
    Option String × List SnapshotStep :=
  let snapshotID := ops.filepathBase rootPath
  let target := ops.filepathJoin rootPath containerRootfsPath
  let steps1 := [SnapshotStep.unmount target]
  match (match ops.unmount target with
      | some err =>
        if !silent then
          some ("SnapshotRm: exception while unmounting: " ++ rootPath ++ "/" ++
            containerRootfsPath ++ ". " ++ err)
        else none
      | none => none) with
  | some err => (some err, steps1)
  | none =>
    let steps2 := steps1 ++ [SnapshotStep.removeAll rootPath]
    match (match ops.removeAll rootPath with
        | some err =>
          if !silent then
            some ("SnapshotRm: exception while deleting: " ++ rootPath ++ ". " ++ err)
          else none
        | none => none) with
    | some err => (some err, steps2)
    | none =>
      let steps3 := steps2 ++ [SnapshotStep.ctrRemoveSnapshot snapshotID]
      match (match ops.ctrRemoveSnapshot snapshotID with
          | some err =>
            if !silent then
              some ("SnapshotRm: unable to remove snapshot: " ++ snapshotID ++ ". " ++ err)
            else none
          | none => none) with
      | some err => (some err, steps3)
      | none => (none, steps3)

/-- The outcome of the file operations of `createMountPointExecEnvFiles`:
the error of `os.Create` and of `WriteString` per file name (and content),
`none` on success. -/
structure FileOps where
  create : String → Option String
  writeString : String → String → Option String

/-- `file.WriteString content` on the handle `os.Create` returned for
`name`: a failed create leaves a nil handle, on which the write fails. -/
def writeFile (ops : FileOps) (name content : String) : Option String :=
  match ops.create name with
  | some _ => some "invalid argument"
  | none => ops.writeString name content

/-- `strings.HasPrefix s "/"`. -/
def hasSlashPrefix (s : String) : Bool :=
  s.data.head? == some '/'

/-- `noOfDisks - 1` on a Go `int` of 64 bits. -/
def disksWithoutImage (noOfDisks : Int) : Int :=
  (noOfDisks - 1 + 2 ^ 63) % 2 ^ 64 - 2 ^ 63

/-- The loop `for path := range mountpoints`: the error returned from inside
the loop, if any, and the lines written to the mount-point file. -/
def writeMountPoints (ops : FileOps) (mpFileName : String) :
    List String → Option String × List (String × String)
  | [] => (none, [])
  | path :: rest =>
    if !hasSlashPrefix path then
      (some "createMountPointExecEnvFiles: targetPath should be absolute", [])
    else
      match writeFile ops mpFileName (path ++ "\n") with
      | some err =>
        (some ("createMountPointExecEnvFiles: writing to " ++ mpFileName ++ " failed " ++ err),
          [(mpFileName, path ++ "\n")])
      | none =>
        let r := writeMountPoints ops mpFileName rest
        (r.1, (mpFileName, path ++ "\n") :: r.2)

/-- The content of the environment file. -/
def envContent (workdir : String) (env : List String) : String :=
  env.foldl (fun acc e => acc ++ "export " ++ e ++ "\n")
    (if workdir ≠ "" then "export WORKDIR=\"" ++ workdir ++ "\"\n" else "")

/-- `createMountPointExecEnvFiles`: the error returned (`none` for nil) and
the writes attempted, in order.  `mountpoints` lists the keys of the Go map
in the order `range` visits them. -/
def createMountPointExecEnvFiles (ops : FileOps) (containerPath : String)
    (mountpoints : List String) (execpath : List String) (workdir : String)
    (env : List String) (noOfDisks : Int) : Option String × List (String × String) :=
  let mpFileName := containerPath ++ "/mountPoints"
  let cmdFileName := containerPath ++ "/cmdline"
  let envFileName := containerPath ++ "/environment"
  let noOfDisks := disksWithoutImage noOfDisks
  if noOfDisks < (mountpoints.length : Int) then
    (some ("createMountPointExecEnvFiles: Number of volumes provided: " ++ toString noOfDisks ++
        " is less than number of mount-points: " ++ toString mountpoints.length ++ ". "),
      [])
  else
    match writeMountPoints ops mpFileName mountpoints with
    | (some err, writes) => (some err, writes)
    | (none, writes) =>
      let cmdline := " ".intercalate (execpath.map (fun s => "\"" ++ s ++ "\""))
      match writeFile ops cmdFileName cmdline with
      | some err =>
        (some ("createMountPointExecEnvFiles: writing to " ++ cmdFileName ++ " failed " ++ err),
          writes ++ [(cmdFileName, cmdline)])
      | none =>
        match writeFile ops envFileName (envContent workdir env) with
        | some err =>
          (some ("createMountPointExecEnvFiles: writing to " ++ envFileName ++ " failed " ++ err),
            writes ++ [(cmdFileName, cmdline), (envFileName, envContent workdir env)])
        | none =>
          (none, writes ++ [(cmdFileName, cmdline), (envFileName, envContent workdir env)])

/-- The fields of `v1.Image.Config` that `getContainerConfigs` reads;
`Volumes` lists the keys of the map. -/
structure ImageConfig where
  Volumes : List String
  Entrypoint : List String
  Cmd : List String
  WorkingDir : String
  Env : List String

/-- The pieces of a list of characters between the occurrences of `sep`. -/
def splitChars (sep : Char) : List Char → List (List Char)
  | [] => [[]]
  | c :: cs =>
    if c = sep then [] :: splitChars sep cs
    else
      match splitChars sep cs with
      | [] => [[c]]
      | piece :: pieces => (c :: piece) :: pieces

/-- `strings.Split s sep` for a separator of one character. -/
def stringsSplit (s : String) (sep : Char) : List String :=
  (splitChars sep s.data).map String.mk

/-- The body of the loop over `unProcessedEnv`: the entry appended to `env`
for the image env string `e`. -/
def processEnv (e : String) : String :=
  match stringsSplit e '=' with
  | [key, value] => key ++ "=\"" ++ value ++ "\""
  | _ => e

/-- `getContainerConfigs`: mount points, exec path, working directory,
environment and the error, which is always nil.  `userEnvVars` lists the
pairs of the map in the order `range` visits them. -/
def getContainerConfigs (imageInfo : ImageConfig) (userEnvVars : List (String × String)) :
    List String × List String × String × List String × Option String :=
  let mountpoints := imageInfo.Volumes
  let execpath := imageInfo.Entrypoint ++ imageInfo.Cmd
  let workdir := imageInfo.WorkingDir
  let env := imageInfo.Env.map processEnv
  let env := env ++ userEnvVars.map (fun kv => kv.1 ++ "=\"" ++ kv.2 ++ "\"")
  (mountpoints, execpath, workdir, env, none)

end Containerd

namespace Zedagent

/-! ## Association lists as maps -/

theorem lookup_mapSet_self {V : Type} (key : String) (v : V) (m : List (String × V)) :
    (mapSet key v m).lookup key = some v := by
  simp [mapSet, List.lookup_cons]

theorem lookup_filter_ne {V : Type} (key k : String) (m : List (String × V)) (h : k ≠ key) :
    (m.filter (fun p => p.1 != key)).lookup k = m.lookup k := by
  induction m with
  | nil => rfl
  | cons p rest ih =>
    obtain ⟨a, b⟩ := p
    by_cases ha : a = key
    · subst ha
      have hk : (k == a) = false := by simpa using h
      simp [List.filter_cons, List.lookup_cons, hk, ih]
    · have hne : (a != key) = true := by simpa using ha
      simp only [List.filter_cons, hne, if_true, List.lookup_cons, ih]

theorem lookup_filter_self {V : Type} (key : String) (m : List (String × V)) :
    (m.filter (fun p => p.1 != key)).lookup key = none := by
  induction m with
  | nil => rfl
  | cons p rest ih =>
    obtain ⟨a, b⟩ := p
    by_cases ha : a = key
    · subst ha
      simp [List.filter_cons, ih]
    · have hne : (a != key) = true := by simpa using ha
      have hk : (key == a) = false := by simpa using fun h : key = a => ha h.symm
      simp only [List.filter_cons, hne, if_true, List.lookup_cons, hk, ih]

theorem lookup_mapSet_ne {V : Type} (key k : String) (v : V) (m : List (String × V))
    (h : k ≠ key) : (mapSet key v m).lookup k = m.lookup k := by
  have hk : (k == key) = false := by simpa using h
  simp only [mapSet, List.lookup_cons, hk]
  exact lookup_filter_ne key k m h

theorem lookup_mapDelete_self {V : Type} (key : String) (m : List (String × V)) :
    (mapDelete key m).lookup key = none :=
  lookup_filter_self key m

theorem lookup_mapDelete_ne {V : Type} (key k : String) (m : List (String × V)) (h : k ≠ key) :
    (mapDelete key m).lookup k = m.lookup k :=
  lookup_filter_ne key k m h

theorem mem_of_lookup_eq_some {V : Type} {key : String} {v : V} {m : List (String × V)}
    (h : m.lookup key = some v) : (key, v) ∈ m := by
  induction m with
  | nil => simp at h
  | cons p rest ih =>
    obtain ⟨a, b⟩ := p
    by_cases ha : key = a
    · subst ha
      simp [List.lookup_cons] at h
      simp [h]
    · have hk : (key == a) = false := by simpa using ha
      simp only [List.lookup_cons, hk] at h
      exact List.mem_cons_of_mem _ (ih h)

theorem lookup_eq_none_iff_forall {V : Type} (key : String) (m : List (String × V)) :
    m.lookup key = none ↔ ∀ p ∈ m, p.1 ≠ key := by
  induction m with
  | nil => simp
  | cons p rest ih =>
    obtain ⟨a, b⟩ := p
    by_cases ha : key = a
    · subst ha
      simp [List.lookup_cons]
    · have hk : (key == a) = false := by simpa using ha
      simp only [List.lookup_cons, hk, ih, List.mem_cons, forall_eq_or_imp]
      constructor
      · intro h
        exact ⟨fun h2 => ha h2.symm, h⟩
      · intro h
        exact h.2

theorem filter_ne_eq_self {V : Type} {key : String} {m : List (String × V)}
    (h : m.lookup key = none) : m.filter (fun p => p.1 != key) = m := by
  rw [List.filter_eq_self]
  intro p hp
  simpa using (lookup_eq_none_iff_forall key m).1 h p hp

/-! ## The verifier config store -/

theorem checkCertChain_eq_none_iff (env : Env) (chain : List String) :
    checkCertChain env chain = none ↔
      ∀ u ∈ chain, u ≠ "" → env.stat (certFilename env u) = none := by
  induction chain with
  | nil => simp [checkCertChain]
  | cons u rest ih =>
    by_cases hu : u = ""
    · simp [checkCertChain, hu, ih]
    · cases hs : env.stat (certFilename env u) with
      | none => simp [checkCertChain, hu, hs, ih]
      | some err => simp [checkCertChain, hu, hs]

theorem checkCertsForObject_ne_none_of_missing (env : Env) (safename : String)
    (sc : StorageConfig) (h : missingCert env sc) :
    checkCertsForObject env safename sc ≠ none := by
  unfold checkCertsForObject
  rcases h with ⟨hk, hs⟩ | ⟨u, hu, hne, hs⟩
  · have hc : countCerts sc ≠ 0 := by
      unfold countCerts
      rw [if_pos hk]
      exact Nat.ne_of_gt (Nat.lt_of_lt_of_le Nat.one_pos (Nat.le_add_right 1 _))
    rw [if_neg hc, if_pos hk]
    cases hst : env.stat (certFilename env sc.SignatureKey) with
    | none => exact absurd hst hs
    | some err => simp
  · have hc : countCerts sc ≠ 0 := by
      have : u ∈ sc.CertificateChain.filter (fun u => u != "") := by
        simp [List.mem_filter, hu, hne]
      have hpos := List.length_pos_of_mem this
      simp only [countCerts]
      exact Nat.ne_of_gt (Nat.lt_of_lt_of_le hpos (Nat.le_add_left _ _))
    rw [if_neg hc]
    have hchain : checkCertChain env sc.CertificateChain ≠ none := by
      intro hnone
      exact hs ((checkCertChain_eq_none_iff env _).1 hnone u hu hne)
    split
    · simp
    · exact hchain

/-- C3: on a config store that holds an entry `e` under the key, a successful
call leaves under that key `e` with `RefCount` raised by one and no other
field changed, whatever the storage config passed in says. -/
theorem createVerifierConfig_present (env : Env) (objType safename : String)
    (sc : StorageConfig) (checkCerts : Bool) (w : World) (e : VerifyImageConfig)
    (hpresent : verifierConfigGet w (env.formLookupKey objType safename) = some e)
    (hok : (createVerifierConfig env objType safename sc checkCerts w).1 = none) :
    verifierConfigGet (createVerifierConfig env objType safename sc checkCerts w).2
        (env.formLookupKey objType safename) =
      some { e with RefCount := e.RefCount + 1 } := by
  cases hc : (if checkCerts then checkCertsForObject env safename sc else none) with
  | some err => simp [createVerifierConfig, initVerifierMaps, hc] at hok
  | none =>
    simp only [createVerifierConfig, initVerifierMaps, hc, hpresent]
    simp [verifierConfigGet, verifierConfigSet, writeVerifierConfig, lookup_mapSet_self]

/-- Witness of C3: a fourth reference, made with a different storage config,
to an entry that is referenced three times. -/
theorem createVerifierConfig_present_witness :
    verifierConfigGet heldWorld (sampleEnv.formLookupKey "appImg.obj" "a.abc") =
      some { newVerifierConfig "a.abc" sampleStorage with RefCount := 3 } ∧
    (createVerifierConfig sampleEnv "appImg.obj" "a.abc" signedStorage false heldWorld).1 = none ∧
    verifierConfigGet
        (createVerifierConfig sampleEnv "appImg.obj" "a.abc" signedStorage false heldWorld).2
        (sampleEnv.formLookupKey "appImg.obj" "a.abc") =
      some { newVerifierConfig "a.abc" sampleStorage with RefCount := 3 + 1 } :=
  ⟨rfl, rfl,
    createVerifierConfig_present sampleEnv "appImg.obj" "a.abc" signedStorage false heldWorld
      { newVerifierConfig "a.abc" sampleStorage with RefCount := 3 } rfl rfl⟩

/-- C4: when the storage config references a signing key or a certificate
whose file is missing, a call with `checkCerts` set returns an error and
leaves the whole state as it was: no entry added, no count raised, nothing
written downstream. -/
theorem createVerifierConfig_missing_cert (env : Env) (objType safename : String)
    (sc : StorageConfig) (w : World) (hmissing : missingCert env sc) :
    (createVerifierConfig env objType safename sc true w).1 ≠ none ∧
    (createVerifierConfig env objType safename sc true w).2 = w := by
  have hne := checkCertsForObject_ne_none_of_missing env safename sc hmissing
  cases hc : checkCertsForObject env safename sc with
  | none => exact absurd hc hne
  | some err => simp [createVerifierConfig, initVerifierMaps, hc]

/-- Witness of C4: a signed storage config on a device without any
certificate file. -/
theorem createVerifierConfig_missing_cert_witness :
    missingCert sampleEnv signedStorage ∧
    (createVerifierConfig sampleEnv "appImg.obj" "b.def" signedStorage true heldWorld).1 ≠ none ∧
    (createVerifierConfig sampleEnv "appImg.obj" "b.def" signedStorage true heldWorld).2 =
      heldWorld :=
  have hm : missingCert sampleEnv signedStorage :=
    Or.inl ⟨by decide, by simp [sampleEnv]⟩
  ⟨hm, createVerifierConfig_missing_cert sampleEnv "appImg.obj" "b.def" signedStorage heldWorld hm⟩

theorem find_sha_of_unique {m : List (String × VerifyImageConfig)} {key sha : String}
    {e : VerifyImageConfig} (hmem : (key, e) ∈ m) (hsha : e.ImageSha256 = sha)
    (honly : ∀ p ∈ m, p.2.ImageSha256 = sha → p = (key, e)) :
    m.find? (fun p => p.2.ImageSha256 == sha) = some (key, e) := by
  cases hf : m.find? (fun p => p.2.ImageSha256 == sha) with
  | none =>
    have h := List.find?_eq_none.1 hf (key, e) hmem
    simp [hsha] at h
  | some p =>
    have hp : p.2.ImageSha256 = sha := by simpa using List.find?_some hf
    rw [honly p (List.mem_of_find?_eq_some hf) hp]

theorem find_sha_of_none {m : List (String × VerifyImageConfig)} {sha : String}
    (hnone : ∀ p ∈ m, p.2.ImageSha256 ≠ sha) :
    m.find? (fun p => p.2.ImageSha256 == sha) = none := by
  rw [List.find?_eq_none]
  intro p hp
  simpa using hnone p hp

theorem verifierConfigGetSha256_of_unique {w : World} {key sha : String}
    {e : VerifyImageConfig} (hmem : (key, e) ∈ w.verifierConfigMap) (hsha : e.ImageSha256 = sha)
    (honly : ∀ p ∈ w.verifierConfigMap, p.2.ImageSha256 = sha → p = (key, e)) :
    verifierConfigGetSha256 w sha = some e := by
  simp [verifierConfigGetSha256, find_sha_of_unique hmem hsha honly]

theorem MaybeRemoveVerifierConfigSha256_of_none (env : Env) (objType sha : String) (w : World)
    (hnone : ∀ p ∈ w.verifierConfigMap, p.2.ImageSha256 ≠ sha) :
    MaybeRemoveVerifierConfigSha256 env objType sha w = w := by
  simp [MaybeRemoveVerifierConfigSha256, verifierConfigGetSha256, find_sha_of_none hnone]

theorem SameMaps.refl (w : World) : SameMaps w w :=
  ⟨List.Perm.refl _, List.Perm.refl _, rfl⟩

theorem run_runCalls (env : Env) (calls : List Call) (w : World) :
    Run env calls w (runCalls env calls w) := by
  induction calls generalizing w with
  | nil => exact Run.done w
  | cons c cs ih => exact Run.step c cs w w _ (SameMaps.refl w) (ih _)

theorem mem_mapSet {V : Type} {key : String} {v : V} {m : List (String × V)}
    {p : String × V} (h : p ∈ mapSet key v m) : p = (key, v) ∨ p ∈ m := by
  simp only [mapSet, List.mem_cons] at h
  rcases h with h | h
  · exact Or.inl h
  · exact Or.inr (List.mem_of_mem_filter h)

theorem mem_of_verifierConfigGetSha256 {w : World} {sha : String} {e : VerifyImageConfig}
    (h : verifierConfigGetSha256 w sha = some e) : ∃ k, (k, e) ∈ w.verifierConfigMap := by
  unfold verifierConfigGetSha256 at h
  cases hf : w.verifierConfigMap.find? (fun p => p.2.ImageSha256 == sha) with
  | none => simp [hf] at h
  | some p =>
    rw [hf] at h
    simp only [Option.map_some', Option.some.injEq] at h
    refine ⟨p.1, ?_⟩
    rw [← h]
    exact List.mem_of_find?_eq_some hf

theorem refCountsPositive_apply (env : Env) (c : Call) (w : World)
    (h : RefCountsPositive w) : RefCountsPositive (Call.apply env c w) := by
  cases c with
  | create objType safename sc checkCerts =>
    simp only [Call.apply, createVerifierConfig, initVerifierMaps]
    cases hc : (if checkCerts then checkCertsForObject env safename sc else none) with
    | some err => exact h
    | none =>
      cases hg : verifierConfigGet w (env.formLookupKey objType safename) with
      | none =>
        intro p hp
        simp only [verifierConfigSet, writeVerifierConfig, verifierConfigGet,
          lookup_mapSet_self] at hp
        rcases mem_mapSet hp with rfl | hp
        · exact Int.le_refl 1
        · exact h p hp
      | some e =>
        have he : 1 ≤ e.RefCount := h _ (mem_of_lookup_eq_some hg)
        intro p hp
        simp only [verifierConfigSet, writeVerifierConfig, verifierConfigGet,
          lookup_mapSet_self] at hp
        rcases mem_mapSet hp with rfl | hp
        · exact Int.le_trans he (Int.le_add_of_nonneg_right (by decide))
        · exact h p hp
  | release objType sha =>
    simp only [Call.apply, MaybeRemoveVerifierConfigSha256]
    cases hg : verifierConfigGetSha256 w sha with
    | none => exact h
    | some e =>
      obtain ⟨k, hk⟩ := mem_of_verifierConfigGetSha256 hg
      have he : 1 ≤ e.RefCount := h _ hk
      by_cases h1 : e.RefCount - 1 = 0
      · intro p hp
        simp only [h1, ne_eq, not_true_eq_false, if_false, deleteVerifierConfig, mapDelete] at hp
        exact h p (List.mem_of_mem_filter hp)
      · intro p hp
        simp only [ne_eq, h1, not_false_eq_true, if_true, writeVerifierConfig,
          verifierConfigSet] at hp
        rcases mem_mapSet hp with rfl | hp
        · have hpos : 0 < e.RefCount - 1 :=
            Int.lt_iff_le_and_ne.2 ⟨Int.sub_nonneg_of_le he, Ne.symm h1⟩
          have hle : 0 + 1 ≤ e.RefCount - 1 := hpos
          rwa [Int.zero_add] at hle
        · exact h p hp

theorem refCountsPositive_run (env : Env) (calls : List Call) (w w1 : World)
    (hrun : Run env calls w w1) (h : RefCountsPositive w) : RefCountsPositive w1 := by
  induction hrun with
  | done w => exact h
  | step c cs w w0 w1 hsame _ ih =>
    apply ih
    apply refCountsPositive_apply
    intro p hp
    exact h p (hsame.1.mem_iff.2 hp)

/-- C7: after any sequence of `createVerifierConfig` and
`MaybeRemoveVerifierConfigSha256` calls from the empty config store, with the
maps ranged over in any order, every stored entry has `RefCount` at least 1,
so the entry a release finds is decremented to a count that is not below
zero. -/
theorem refCount_never_below_one (env : Env) (calls : List Call) (w : World)
    (hrun : Run env calls emptyWorld w) :
    (∀ p ∈ w.verifierConfigMap, 1 ≤ p.2.RefCount) ∧
    (∀ sha e, verifierConfigGetSha256 w sha = some e → 0 ≤ e.RefCount - 1) := by
  have h : RefCountsPositive w :=
    refCountsPositive_run env calls emptyWorld w hrun (by intro p hp; simp [emptyWorld] at hp)
  refine ⟨h, ?_⟩
  intro sha e he
  obtain ⟨k, hk⟩ := mem_of_verifierConfigGetSha256 he
  exact Int.sub_nonneg_of_le (h _ hk)

/-- Witness of C7: two references, a release and a reference to another
image, from the empty store. -/
theorem refCount_never_below_one_witness :
    Run sampleEnv sampleCalls emptyWorld (runCalls sampleEnv sampleCalls emptyWorld) ∧
    ∀ p ∈ (runCalls sampleEnv sampleCalls emptyWorld).verifierConfigMap, 1 ≤ p.2.RefCount :=
  ⟨run_runCalls sampleEnv sampleCalls emptyWorld,
    (refCount_never_below_one sampleEnv sampleCalls
      (runCalls sampleEnv sampleCalls emptyWorld)
      (run_runCalls sampleEnv sampleCalls emptyWorld)).1⟩

theorem lookup_of_mem_nodup {V : Type} {m : List (String × V)} {k : String} {v : V}
    (hnd : (m.map Prod.fst).Nodup) (hmem : (k, v) ∈ m) : m.lookup k = some v := by
  induction m with
  | nil => simp at hmem
  | cons p rest ih =>
    obtain ⟨a, b⟩ := p
    simp only [List.map_cons, List.nodup_cons] at hnd
    rcases List.mem_cons.1 hmem with h | h
    · cases h
      simp [List.lookup_cons]
    · have hne : k ≠ a := by
        rintro rfl
        exact hnd.1 (List.mem_map_of_mem Prod.fst h)
      have hk : (k == a) = false := by simpa using hne
      simp only [List.lookup_cons, hk]
      exact ih hnd.2 h


theorem held_facts {key sha : String} {w : World} {ek : VerifyImageConfig}
    {m1 : List (String × VerifyImageConfig)} (hfresh : Fresh key sha w)
    (hsha : ek.ImageSha256 = sha) (hperm : m1.Perm ((key, ek) :: w.verifierConfigMap)) :
    m1.lookup key = some ek ∧
    m1.find? (fun p => p.2.ImageSha256 == sha) = some (key, ek) ∧
    (m1.filter (fun p => p.1 != key)).Perm w.verifierConfigMap := by
  obtain ⟨hnd, hkey, hno⟩ := hfresh
  have hkeys : ∀ p ∈ w.verifierConfigMap, p.1 ≠ key :=
    (lookup_eq_none_iff_forall key _).1 hkey
  have hmem : (key, ek) ∈ m1 := hperm.mem_iff.2 (List.mem_cons_self _ _)
  have hnd1 : (m1.map Prod.fst).Nodup := by
    rw [(hperm.map Prod.fst).nodup_iff]
    simp only [List.map_cons, List.nodup_cons, List.mem_map, not_exists, not_and]
    exact ⟨fun p hp => hkeys p hp, hnd⟩
  refine ⟨lookup_of_mem_nodup hnd1 hmem, find_sha_of_unique hmem hsha ?_, ?_⟩
  · intro p hp hps
    rcases List.mem_cons.1 (hperm.mem_iff.1 hp) with h | h
    · exact h
    · exact absurd hps (hno p h)
  · have h1 := hperm.filter (fun p => p.1 != key)
    have h2 : ((key, ek) :: w.verifierConfigMap).filter (fun p => p.1 != key) =
        w.verifierConfigMap := by
      simp only [List.filter_cons, bne_self_eq_false, Bool.false_eq_true, if_false]
      exact filter_ne_eq_self hkey
    rw [h2] at h1
    exact h1

theorem refs_succ_iff (key objType : String) (e : VerifyImageConfig) (w w1 : World) (j : Nat) :
    Refs key objType e w (j + 1) w1 ↔
      ∃ ds, noDelete ds ∧
        w1.verifierConfigMap.Perm
            ((key, { e with RefCount := ((j + 1 : Nat) : Int) }) :: w.verifierConfigMap) ∧
          w1.downstream = w.downstream ++ ds :=
  Iff.rfl

theorem refs_zero_iff (key objType : String) (e : VerifyImageConfig) (w w1 : World) :
    Refs key objType e w 0 w1 ↔
      ∃ ds, noDelete ds ∧
        w1.verifierConfigMap.Perm w.verifierConfigMap ∧
          w1.downstream = w.downstream ++ ds ++ [Downstream.deleteConfig objType e.Safename] :=
  Iff.rfl

theorem refs_of_sameMaps {key objType : String} {e : VerifyImageConfig} {w w1 w0 : World}
    {k : Nat} (h : Refs key objType e w k w1) (hsame : SameMaps w1 w0) :
    Refs key objType e w k w0 := by
  obtain ⟨ds, hds, h⟩ := h
  refine ⟨ds, hds, ?_⟩
  cases k with
  | zero => exact ⟨hsame.1.symm.trans h.1, hsame.2.2 ▸ h.2⟩
  | succ j => exact ⟨hsame.1.symm.trans h.1, hsame.2.2 ▸ h.2⟩

theorem noDelete_append_write {ds : List Downstream} (h : noDelete ds) (t s : String)
    (c : VerifyImageConfig) : noDelete (ds ++ [Downstream.writeConfig t s c]) := by
  intro d hd
  rcases List.mem_append.1 hd with hd | hd
  · exact h d hd
  · simp only [List.mem_singleton] at hd
    subst hd
    intro t1 s1 hEq
    cases hEq

theorem createVerifierConfig_eq_of_absent (env : Env) (objType safename : String)
    (sc : StorageConfig) (checkCerts : Bool) (w : World)
    (hcerts : checkCerts = false ∨ checkCertsForObject env safename sc = none)
    (habsent : verifierConfigGet w (env.formLookupKey objType safename) = none) :
    createVerifierConfig env objType safename sc checkCerts w =
      (none,
        { w with
          verifierConfigMap :=
            mapSet (env.formLookupKey objType safename) (newVerifierConfig safename sc)
              w.verifierConfigMap
          downstream :=
            w.downstream ++
              [Downstream.writeConfig objType safename (newVerifierConfig safename sc)] }) := by
  have hc : (if checkCerts then checkCertsForObject env safename sc else none) = none := by
    rcases hcerts with h | h
    · simp [h]
    · simp [h]
  simp only [createVerifierConfig, initVerifierMaps, hc, habsent]
  simp [verifierConfigGet, verifierConfigSet, writeVerifierConfig, lookup_mapSet_self,
    newVerifierConfig]

theorem createVerifierConfig_eq_of_present (env : Env) (objType safename : String)
    (sc : StorageConfig) (checkCerts : Bool) (w : World) (e : VerifyImageConfig)
    (hcerts : checkCerts = false ∨ checkCertsForObject env safename sc = none)
    (hpresent : verifierConfigGet w (env.formLookupKey objType safename) = some e) :
    createVerifierConfig env objType safename sc checkCerts w =
      (none,
        { w with
          verifierConfigMap :=
            mapSet (env.formLookupKey objType safename) { e with RefCount := e.RefCount + 1 }
              w.verifierConfigMap
          downstream :=
            w.downstream ++
              [Downstream.writeConfig objType safename { e with RefCount := e.RefCount + 1 }] }) := by
  have hc : (if checkCerts then checkCertsForObject env safename sc else none) = none := by
    rcases hcerts with h | h
    · simp [h]
    · simp [h]
  simp only [createVerifierConfig, initVerifierMaps, hc, hpresent]
  simp [verifierConfigGet, verifierConfigSet, writeVerifierConfig, lookup_mapSet_self]

theorem MaybeRemoveVerifierConfigSha256_eq_of_last (env : Env) (objType sha : String)
    (w : World) (e : VerifyImageConfig) (hfound : verifierConfigGetSha256 w sha = some e)
    (hlast : e.RefCount = 1) :
    MaybeRemoveVerifierConfigSha256 env objType sha w =
      { w with
        verifierConfigMap :=
          mapDelete (env.formLookupKey objType e.Safename) w.verifierConfigMap
        downstream := w.downstream ++ [Downstream.deleteConfig objType e.Safename] } := by
  have h0 : ¬ (e.RefCount - 1 ≠ 0) := by rw [hlast]; decide
  simp only [MaybeRemoveVerifierConfigSha256, hfound, if_neg h0, deleteVerifierConfig]

theorem MaybeRemoveVerifierConfigSha256_eq_of_more (env : Env) (objType sha : String)
    (w : World) (e : VerifyImageConfig) (hfound : verifierConfigGetSha256 w sha = some e)
    (hmore : e.RefCount ≠ 1) :
    MaybeRemoveVerifierConfigSha256 env objType sha w =
      { w with
        verifierConfigMap :=
          mapSet (env.formLookupKey objType e.Safename) { e with RefCount := e.RefCount - 1 }
            w.verifierConfigMap
        downstream :=
          w.downstream ++
            [Downstream.writeConfig objType e.Safename { e with RefCount := e.RefCount - 1 }] } := by
  have h2 : e.RefCount - 1 ≠ 0 := fun h0 => hmore (Int.eq_of_sub_eq_zero h0)
  simp only [MaybeRemoveVerifierConfigSha256, hfound, if_pos h2, writeVerifierConfig,
    verifierConfigSet]

/-- The first reference creates the entry. -/
theorem refs_create_first (env : Env) (objType safename : String) (sc : StorageConfig)
    (checkCerts : Bool) (w w0 : World)
    (hfresh : Fresh (env.formLookupKey objType safename) sc.ImageSha256 w)
    (hsame : SameMaps w w0)
    (hcerts : checkCerts = false ∨ checkCertsForObject env safename sc = none) :
    Refs (env.formLookupKey objType safename) objType (newVerifierConfig safename sc) w 1
      (createVerifierConfig env objType safename sc checkCerts w0).2 := by
  have hkeys := (lookup_eq_none_iff_forall _ _).1 hfresh.2.1
  have hget0 : verifierConfigGet w0 (env.formLookupKey objType safename) = none := by
    rw [verifierConfigGet, lookup_eq_none_iff_forall]
    intro p hp
    exact hkeys p (hsame.1.mem_iff.2 hp)
  rw [refs_succ_iff, createVerifierConfig_eq_of_absent env objType safename sc checkCerts w0
    hcerts hget0]
  refine ⟨[Downstream.writeConfig objType safename (newVerifierConfig safename sc)], ?_, ?_, ?_⟩
  · intro d hd t s hEq
    simp only [List.mem_singleton] at hd
    subst hd
    cases hEq
  · simp only [mapSet]
    rw [filter_ne_eq_self hget0]
    exact List.Perm.cons _ hsame.1.symm
  · simp only [hsame.2.2]

/-- A further reference raises the count of the entry. -/
theorem refs_create_next (env : Env) (objType safename : String) (sc : StorageConfig)
    (checkCerts : Bool) (e : VerifyImageConfig) (sha : String) (w w1 w0 : World) (j : Nat)
    (hfresh : Fresh (env.formLookupKey objType safename) sha w) (hsha : e.ImageSha256 = sha)
    (href : Refs (env.formLookupKey objType safename) objType e w (j + 1) w1)
    (hsame : SameMaps w1 w0)
    (hcerts : checkCerts = false ∨ checkCertsForObject env safename sc = none) :
    Refs (env.formLookupKey objType safename) objType e w (j + 1 + 1)
      (createVerifierConfig env objType safename sc checkCerts w0).2 := by
  obtain ⟨ds, hds, hperm, hdown⟩ := (refs_succ_iff _ _ _ _ _ _).1 (refs_of_sameMaps href hsame)
  obtain ⟨hlook, _, hfilter⟩ := held_facts hfresh (by exact hsha) hperm
  rw [refs_succ_iff,
    createVerifierConfig_eq_of_present env objType safename sc checkCerts w0 _ hcerts hlook]
  refine ⟨ds ++ [Downstream.writeConfig objType safename
    { e with RefCount := ((j + 1 : Nat) : Int) + 1 }], noDelete_append_write hds _ _ _, ?_, ?_⟩
  · simp only [mapSet]
    have hcast : ((j + 1 : Nat) : Int) + 1 = ((j + 1 + 1 : Nat) : Int) := rfl
    simp only [hcast]
    exact List.Perm.cons _ hfilter
  · simp only [hdown, List.append_assoc]

/-- A release lowers the count of the entry, and the last one removes it. -/
theorem refs_release (env : Env) (objType : String) (e : VerifyImageConfig) (sha : String)
    (w w1 w0 : World) (j : Nat)
    (hfresh : Fresh (env.formLookupKey objType e.Safename) sha w) (hsha : e.ImageSha256 = sha)
    (href : Refs (env.formLookupKey objType e.Safename) objType e w (j + 1) w1)
    (hsame : SameMaps w1 w0) :
    Refs (env.formLookupKey objType e.Safename) objType e w j
      (MaybeRemoveVerifierConfigSha256 env objType sha w0) := by
  obtain ⟨ds, hds, hperm, hdown⟩ := (refs_succ_iff _ _ _ _ _ _).1 (refs_of_sameMaps href hsame)
  obtain ⟨_, hfind, hfilter⟩ := held_facts hfresh (by exact hsha) hperm
  have hfound : verifierConfigGetSha256 w0 sha =
      some { e with RefCount := ((j + 1 : Nat) : Int) } := by
    simp only [verifierConfigGetSha256, hfind, Option.map_some']
  cases j with
  | zero =>
    rw [refs_zero_iff,
      MaybeRemoveVerifierConfigSha256_eq_of_last env objType sha w0 _ hfound rfl]
    exact ⟨ds, hds, hfilter, by simp only [hdown]⟩
  | succ i =>
    rw [refs_succ_iff, MaybeRemoveVerifierConfigSha256_eq_of_more env objType sha w0 _ hfound
      (fun h => Nat.succ_ne_zero i (Nat.succ.inj (Int.ofNat.inj h)))]
    refine ⟨ds ++ [Downstream.writeConfig objType e.Safename
      { e with RefCount := ((i + 1 + 1 : Nat) : Int) - 1 }], noDelete_append_write hds _ _ _,
      ?_, ?_⟩
    · simp only [mapSet]
      have hcast : ((i + 1 + 1 : Nat) : Int) - 1 = ((i + 1 : Nat) : Int) :=
        Int.add_sub_cancel ((i + 1 : Nat) : Int) 1
      simp only [hcast]
      exact List.Perm.cons _ hfilter
    · simp only [hdown, List.append_assoc]

theorem refs_creates (env : Env) (objType safename : String) (e : VerifyImageConfig)
    (sha : String) (w : World) (hfresh : Fresh (env.formLookupKey objType safename) sha w)
    (hsha : e.ImageSha256 = sha) (tail : List Call) (w' : World) :
    ∀ (rest : List (StorageConfig × Bool)) (j : Nat) (w1 : World),
      (∀ a ∈ rest, a.2 = false ∨ checkCertsForObject env safename a.1 = none) →
      Refs (env.formLookupKey objType safename) objType e w (j + 1) w1 →
      Run env (createCalls objType safename rest ++ tail) w1 w' →
      ∃ w2, Refs (env.formLookupKey objType safename) objType e w (j + 1 + rest.length) w2 ∧
        Run env tail w2 w' := by
  intro rest
  induction rest with
  | nil =>
    intro j w1 _ href hrun
    exact ⟨w1, href, hrun⟩
  | cons a rest ih =>
    intro j w1 hcerts href hrun
    simp only [createCalls, List.map_cons, List.cons_append] at hrun
    cases hrun with
    | step _ _ _ w0 _ hsame hrest =>
      have hnext := refs_create_next env objType safename a.1 a.2 e sha w w1 w0 j hfresh hsha
        href hsame (hcerts a (List.mem_cons_self _ _))
      obtain ⟨w2, h2, hrun2⟩ := ih (j + 1) _
        (fun b hb => hcerts b (List.mem_cons_of_mem _ hb)) hnext hrest
      refine ⟨w2, ?_, hrun2⟩
      have hlen : j + 1 + (a :: rest).length = j + 1 + 1 + rest.length := by
        simp only [List.length_cons]
        rw [Nat.add_assoc (j + 1) 1, Nat.add_comm 1]
      rw [hlen]
      exact h2

theorem refs_releases (env : Env) (objType : String) (e : VerifyImageConfig) (sha : String)
    (w : World) (hfresh : Fresh (env.formLookupKey objType e.Safename) sha w)
    (hsha : e.ImageSha256 = sha) (w' : World) :
    ∀ (m k : Nat) (w1 : World), m ≤ k →
      Refs (env.formLookupKey objType e.Safename) objType e w k w1 →
      Run env (releaseCalls objType sha m) w1 w' →
      Refs (env.formLookupKey objType e.Safename) objType e w (k - m) w' := by
  intro m
  induction m with
  | zero =>
    intro k w1 _ href hrun
    simp only [releaseCalls, List.replicate_zero] at hrun
    cases hrun
    exact href
  | succ m ih =>
    intro k w1 hk href hrun
    obtain ⟨j, rfl⟩ : ∃ j, k = j + 1 :=
      ⟨k - 1, (Nat.sub_add_cancel (Nat.le_trans (Nat.succ_le_succ (Nat.zero_le m)) hk)).symm⟩
    simp only [releaseCalls, List.replicate_succ] at hrun
    cases hrun with
    | step _ _ _ w0 _ hsame hrest =>
      have hnext := refs_release env objType e sha w w1 w0 j hfresh hsha href hsame
      have h2 := ih j _ (Nat.le_of_succ_le_succ hk) hnext hrest
      have hsub : j + 1 - (m + 1) = j - m := Nat.add_sub_add_right j 1 m
      rw [hsub]
      exact h2

/-- C6: on a config store (a map) with no entry under the key of `(objType,
safename)` and no entry with the digest, `n` successful `createVerifierConfig`
calls followed by `m` releases of the digest, each call finding the maps in
any iteration order, leave for `m < n` the entry of the first call with
`RefCount` `n - m` and no downstream deletion, and for `m = n` no entry under
the key, the config store of the start, and a downstream record whose only
deletion is the last action, the removal of the entry's config file. -/
theorem refCount_create_release (env : Env) (objType safename : String) (sc : StorageConfig)
    (checkCerts : Bool) (rest : List (StorageConfig × Bool)) (m : Nat) (w w' : World)
    (hfresh : Fresh (env.formLookupKey objType safename) sc.ImageSha256 w)
    (hcerts : ∀ a ∈ (sc, checkCerts) :: rest,
      a.2 = false ∨ checkCertsForObject env safename a.1 = none)
    (hm : m ≤ rest.length + 1)
    (hrun : Run env (createCalls objType safename ((sc, checkCerts) :: rest) ++
      releaseCalls objType sc.ImageSha256 m) w w') :
    (m < rest.length + 1 →
      verifierConfigGet w' (env.formLookupKey objType safename) =
        some { newVerifierConfig safename sc with
                RefCount := ((rest.length + 1 : Nat) : Int) - (m : Int) } ∧
      ∃ ds, noDelete ds ∧ w'.downstream = w.downstream ++ ds) ∧
    (m = rest.length + 1 →
      verifierConfigGet w' (env.formLookupKey objType safename) = none ∧
      w'.verifierConfigMap.Perm w.verifierConfigMap ∧
      ∃ ds, noDelete ds ∧
        w'.downstream = w.downstream ++ ds ++ [Downstream.deleteConfig objType safename]) := by
  have hsha : (newVerifierConfig safename sc).ImageSha256 = sc.ImageSha256 := rfl
  simp only [createCalls, List.map_cons, List.cons_append] at hrun
  cases hrun with
  | step _ _ _ w0 _ hsame hrest =>
    have h1 := refs_create_first env objType safename sc checkCerts w w0 hfresh hsame
      (hcerts _ (List.mem_cons_self _ _))
    obtain ⟨w2, h2, hrun2⟩ := refs_creates env objType safename (newVerifierConfig safename sc)
      sc.ImageSha256 w hfresh hsha _ w' rest 0 _
      (fun b hb => hcerts b (List.mem_cons_of_mem _ hb)) h1 hrest
    have hn : 0 + 1 + rest.length = rest.length + 1 := by rw [Nat.zero_add, Nat.add_comm]
    rw [hn] at h2
    have h3 := refs_releases env objType (newVerifierConfig safename sc) sc.ImageSha256 w
      hfresh hsha w' m (rest.length + 1) w2 hm h2 hrun2
    constructor
    · intro hlt
      obtain ⟨j, hj⟩ : ∃ j, rest.length + 1 - m = j + 1 :=
        ⟨rest.length + 1 - m - 1, (Nat.sub_add_cancel (Nat.sub_pos_of_lt hlt)).symm⟩
      rw [hj] at h3
      obtain ⟨ds, hds, hperm, hdown⟩ := (refs_succ_iff _ _ _ _ _ _).1 h3
      obtain ⟨hlook, _, _⟩ := held_facts hfresh (by exact hsha) hperm
      have hcast : ((rest.length + 1 : Nat) : Int) - (m : Int) = ((j + 1 : Nat) : Int) := by
        rw [← Int.ofNat_sub hm, hj]
      rw [hcast]
      exact ⟨hlook, ds, hds, hdown⟩
    · intro heq
      have h0 : rest.length + 1 - m = 0 := by rw [heq]; exact Nat.sub_self _
      rw [h0] at h3
      obtain ⟨ds, hds, hperm, hdown⟩ := (refs_zero_iff _ _ _ _ _).1 h3
      refine ⟨?_, hperm, ds, hds, hdown⟩
      rw [verifierConfigGet, lookup_eq_none_iff_forall]
      intro p hp
      exact (lookup_eq_none_iff_forall _ _).1 hfresh.2.1 p (hperm.mem_iff.1 hp)

/-- Witness of C6: two referrers of one image on a store that holds another
image; the first release leaves `RefCount` 1 and deletes nothing, the second
removes the entry. -/
theorem refCount_create_release_witness :
    Fresh (sampleEnv.formLookupKey "appImg.obj" "a.abc") sampleStorage.ImageSha256 otherWorld ∧
    verifierConfigGet
        (runCalls sampleEnv
          (createCalls "appImg.obj" "a.abc" twoReferrers ++ releaseCalls "appImg.obj" "abc" 1)
          otherWorld)
        (sampleEnv.formLookupKey "appImg.obj" "a.abc") =
      some { newVerifierConfig "a.abc" sampleStorage with RefCount := ((1 + 1 : Nat) : Int) - (1 : Nat) } ∧
    (runCalls sampleEnv
        (createCalls "appImg.obj" "a.abc" twoReferrers ++ releaseCalls "appImg.obj" "abc" 2)
        otherWorld).verifierConfigMap.Perm otherWorld.verifierConfigMap :=
  have hfresh : Fresh (sampleEnv.formLookupKey "appImg.obj" "a.abc") sampleStorage.ImageSha256
      otherWorld := ⟨by decide, rfl, by decide⟩
  have hcerts : ∀ a ∈ twoReferrers,
      a.2 = false ∨ checkCertsForObject sampleEnv "a.abc" a.1 = none := by decide
  ⟨hfresh,
    ((refCount_create_release sampleEnv "appImg.obj" "a.abc" sampleStorage false
      [(sampleStorage, true)] 1 otherWorld _ hfresh hcerts (by decide)
      (run_runCalls sampleEnv _ otherWorld)).1 (by decide)).1,
    ((refCount_create_release sampleEnv "appImg.obj" "a.abc" sampleStorage false
      [(sampleStorage, true)] 2 otherWorld _ hfresh hcerts (by decide)
      (run_runCalls sampleEnv _ otherWorld)).2 rfl).2.1⟩

/-! ## The verifier status cache -/

/-- C8: a status with `PendingAdd`, `PendingModify` or `PendingDelete` set
leaves the whole state as it was: the status cache is unchanged and the
base-OS status handler is not called. -/
theorem updateVerifierStatus_pending (env : Env) (objType : String) (status : VerifyImageStatus)
    (w : World)
    (hpending : status.PendingAdd = true ∨ status.PendingModify = true ∨
      status.PendingDelete = true) :
    updateVerifierStatus env objType status w = w ∧
    (updateVerifierStatus env objType status w).verifierStatusMap = w.verifierStatusMap ∧
    (updateVerifierStatus env objType status w).downstream = w.downstream := by
  have h : updateVerifierStatus env objType status w = w := by
    rcases hpending with h | h | h <;> simp [updateVerifierStatus, initVerifierMaps, h]
  rw [h]
  exact ⟨rfl, rfl, rfl⟩

/-- Witness of C8: a base-OS status that is still being modified. -/
theorem updateVerifierStatus_pending_witness :
    updateVerifierStatus sampleEnv "baseOs.obj"
        { sampleStatus "a.abc" "abc" 4 200 with PendingModify := true } cachedWorld =
      cachedWorld :=
  (updateVerifierStatus_pending sampleEnv "baseOs.obj"
    { sampleStatus "a.abc" "abc" 4 200 with PendingModify := true } cachedWorld
    (Or.inr (Or.inl rfl))).1

theorem updateVerifierStatus_eq_of_changed (env : Env) (objType : String)
    (status : VerifyImageStatus) (w : World)
    (hpending : status.PendingAdd = false ∧ status.PendingModify = false ∧
      status.PendingDelete = false)
    (hchanged : ∀ c, verifierStatusGet w (env.formLookupKey objType status.Safename) = some c →
      status.State ≠ c.State ∨ status.Size ≠ c.Size) :
    updateVerifierStatus env objType status w =
      { w with
        verifierStatusMap :=
          mapSet (env.formLookupKey objType status.Safename) status w.verifierStatusMap
        downstream :=
          if objType = env.baseOsObj then
            w.downstream ++ [Downstream.baseOsStatusUpdate status.Safename]
          else w.downstream } := by
  obtain ⟨h1, h2, h3⟩ := hpending
  have hflag : (status.PendingAdd || status.PendingModify || status.PendingDelete) = false := by
    simp [h1, h2, h3]
  have hch : (match verifierStatusGet w (env.formLookupKey objType status.Safename) with
      | some m =>
        if status.State ≠ m.State then true
        else if status.Size ≠ m.Size then true
        else false
      | none => true) = true := by
    cases hg : verifierStatusGet w (env.formLookupKey objType status.Safename) with
    | none => rfl
    | some c =>
      rcases hchanged c hg with h | h
      · simp [h]
      · simp [h]
  unfold updateVerifierStatus
  simp only [initVerifierMaps, hflag, hch, if_true, verifierStatusSet, Bool.false_eq_true,
    if_false]
  split <;> rfl

theorem updateVerifierStatus_eq_of_same (env : Env) (objType : String)
    (status : VerifyImageStatus) (w : World) (c : VerifyImageStatus)
    (hcached : verifierStatusGet w (env.formLookupKey objType status.Safename) = some c)
    (hstate : status.State = c.State) (hsize : status.Size = c.Size) :
    updateVerifierStatus env objType status w = w := by
  unfold updateVerifierStatus
  simp only [initVerifierMaps, hcached, hstate, hsize]
  split <;> simp

/-- C9: for a status `s` without a pending flag, a cache with no entry under
the key of `s` gets `s` stored under it; a cache with an entry `c` under the
key has it replaced by `s` when `s.State` differs from `c.State` or `s.Size`
from `c.Size`, and is left as it was when both agree. -/
theorem updateVerifierStatus_cache (env : Env) (objType : String) (s : VerifyImageStatus)
    (w : World)
    (hpending : s.PendingAdd = false ∧ s.PendingModify = false ∧ s.PendingDelete = false) :
    (verifierStatusGet w (env.formLookupKey objType s.Safename) = none →
      verifierStatusGet (updateVerifierStatus env objType s w)
        (env.formLookupKey objType s.Safename) = some s) ∧
    (∀ c, verifierStatusGet w (env.formLookupKey objType s.Safename) = some c →
      ((s.State ≠ c.State ∨ s.Size ≠ c.Size) →
        (updateVerifierStatus env objType s w).verifierStatusMap =
          mapSet (env.formLookupKey objType s.Safename) s w.verifierStatusMap ∧
        verifierStatusGet (updateVerifierStatus env objType s w)
          (env.formLookupKey objType s.Safename) = some s) ∧
      (¬(s.State ≠ c.State ∨ s.Size ≠ c.Size) →
        (updateVerifierStatus env objType s w).verifierStatusMap = w.verifierStatusMap ∧
        verifierStatusGet (updateVerifierStatus env objType s w)
          (env.formLookupKey objType s.Safename) = some c)) := by
  refine ⟨?_, ?_⟩
  · intro hnone
    rw [updateVerifierStatus_eq_of_changed env objType s w hpending
      (fun c hc => by rw [hnone] at hc; cases hc)]
    exact lookup_mapSet_self _ _ _
  · intro c hc
    refine ⟨?_, ?_⟩
    · intro hdiff
      rw [updateVerifierStatus_eq_of_changed env objType s w hpending
        (fun c1 hc1 => by
          rw [hc] at hc1
          cases hc1
          exact hdiff)]
      exact ⟨rfl, lookup_mapSet_self _ _ _⟩
    · intro hsame
      have hstate : s.State = c.State := by
        by_contra h
        exact hsame (Or.inl h)
      have hsize : s.Size = c.Size := by
        by_contra h
        exact hsame (Or.inr h)
      rw [updateVerifierStatus_eq_of_same env objType s w c hc hstate hsize]
      exact ⟨rfl, hc⟩

/-- Witness of C9: the cached base-OS image is reported verified; the state
differs from the cached one and the entry is replaced. -/
theorem updateVerifierStatus_cache_witness :
    verifierStatusGet cachedWorld (sampleEnv.formLookupKey "baseOs.obj" "a.abc") =
      some (sampleStatus "a.abc" "abc" 2 100) ∧
    verifierStatusGet
        (updateVerifierStatus sampleEnv "baseOs.obj" (sampleStatus "a.abc" "abc" 4 100)
          cachedWorld)
        (sampleEnv.formLookupKey "baseOs.obj" "a.abc") =
      some (sampleStatus "a.abc" "abc" 4 100) :=
  ⟨rfl,
    (((updateVerifierStatus_cache sampleEnv "baseOs.obj" (sampleStatus "a.abc" "abc" 4 100)
      cachedWorld ⟨rfl, rfl, rfl⟩).2 (sampleStatus "a.abc" "abc" 2 100) rfl).1
      (Or.inl (by decide))).2⟩

/-- C10: applying `updateVerifierStatus` with the same status twice in a row
leaves the state the first application left: the same cache, no second write
of the entry and no second call of the base-OS status handler. -/
theorem updateVerifierStatus_twice (env : Env) (objType : String) (s : VerifyImageStatus)
    (w : World) :
    updateVerifierStatus env objType s (updateVerifierStatus env objType s w) =
      updateVerifierStatus env objType s w ∧
    (updateVerifierStatus env objType s
        (updateVerifierStatus env objType s w)).verifierStatusMap =
      (updateVerifierStatus env objType s w).verifierStatusMap ∧
    (updateVerifierStatus env objType s (updateVerifierStatus env objType s w)).downstream =
      (updateVerifierStatus env objType s w).downstream := by
  have h : updateVerifierStatus env objType s (updateVerifierStatus env objType s w) =
      updateVerifierStatus env objType s w := by
    by_cases hp : s.PendingAdd = true ∨ s.PendingModify = true ∨ s.PendingDelete = true
    · rw [(updateVerifierStatus_pending env objType s w hp).1,
        (updateVerifierStatus_pending env objType s w hp).1]
    · have hnp : s.PendingAdd = false ∧ s.PendingModify = false ∧ s.PendingDelete = false := by
        simp only [not_or, Bool.not_eq_true] at hp
        exact hp
      by_cases hch : ∀ c, verifierStatusGet w (env.formLookupKey objType s.Safename) = some c →
          s.State ≠ c.State ∨ s.Size ≠ c.Size
      · rw [updateVerifierStatus_eq_of_changed env objType s w hnp hch]
        exact updateVerifierStatus_eq_of_same env objType s _ s (lookup_mapSet_self _ _ _) rfl rfl
      · simp only [not_forall, not_or, not_not] at hch
        obtain ⟨c, hc, hstate, hsize⟩ := hch
        rw [updateVerifierStatus_eq_of_same env objType s w c hc hstate hsize]
        exact updateVerifierStatus_eq_of_same env objType s w c hc hstate hsize
  rw [h]
  exact ⟨rfl, rfl, rfl⟩

/-! ## The storage-status aggregator -/

/-- C1 (the code departs from the claim): with two storage items, the first
resolved by the status cache to INITIAL and the second already INSTALLED,
`checkStorageVerifierStatus` returns `MinState` INSTALLED, the value the
second item assigned, while the minimum of the item states is INITIAL.  It
holds for every numbering of the states with INITIAL below INSTALLED and
INSTALLED different from MAXSTATE. -/
theorem checkStorageVerifierStatus_installed_overwrites (env : Env) (objType uuidStr : String)
    (hlt : env.INITIAL < env.INSTALLED) (hmax : env.INSTALLED ≠ env.MAXSTATE) :
    (checkStorageVerifierStatus env (failedWorld env objType) objType uuidStr
        [sampleStorage, signedStorage] (twoStatuses env)).map
        (fun r => r.1.MinState) = some env.INSTALLED ∧
    minItemState env (failedWorld env objType) objType [sampleStorage, signedStorage]
        (twoStatuses env) = some env.INITIAL := by
  have h0 : (0 : Nat) ≠ env.INSTALLED :=
    Nat.ne_of_lt (Nat.lt_of_le_of_lt (Nat.zero_le _) hlt)
  have hlook : lookupVerificationStatusAny env (failedWorld env objType) objType
      (env.UrlToSafename sampleStorage.DownloadURL sampleStorage.ImageSha256)
      sampleStorage.ImageSha256 =
      some (sampleStatus (env.UrlToSafename sampleStorage.DownloadURL sampleStorage.ImageSha256)
          sampleStorage.ImageSha256 env.INITIAL 0) := by
    simp [lookupVerificationStatusAny, lookupVerificationStatus, verifierStatusGet, failedWorld,
      List.lookup_cons]
  constructor
  · simp only [checkStorageVerifierStatus, checkStorageLoop, twoStatuses, List.get?_cons_zero,
      List.get?_cons_succ, checkStorageItem, h0, ↓reduceIte, hlook, sampleStatus, ne_eq,
      gt_iff_lt, ite_not, List.set_cons_zero, List.set_cons_succ, hmax, Option.map_some']
  · simp only [minItemState, twoStatuses, List.zipWith_cons_cons, itemState, h0, ↓reduceIte,
      hlook, sampleStatus, List.zipWith_nil_right, List.min?_cons, List.min?_nil,
      Option.elim_none, Option.elim_some, Nat.min_def, Nat.le_of_lt hlt]

/-- Witness of C1 at the states numbered in the spec's order: the aggregate
returned is INSTALLED (3), the least item state is INITIAL (1). -/
theorem checkStorageVerifierStatus_installed_overwrites_witness :
    sampleEnv.INITIAL < sampleEnv.INSTALLED ∧ sampleEnv.INSTALLED ≠ sampleEnv.MAXSTATE ∧
    (checkStorageVerifierStatus sampleEnv (failedWorld sampleEnv "appImg.obj") "appImg.obj"
        "app1" [sampleStorage, signedStorage] (twoStatuses sampleEnv)).map
        (fun r => r.1.MinState) = some 3 ∧
    minItemState sampleEnv (failedWorld sampleEnv "appImg.obj") "appImg.obj"
        [sampleStorage, signedStorage] (twoStatuses sampleEnv) = some 1 :=
  ⟨by decide, by decide,
    checkStorageVerifierStatus_installed_overwrites sampleEnv "appImg.obj" "app1"
      (by decide) (by decide)⟩

/-! ## What the status cache holds after an update, and the two lookups -/

/-- C11, as stated, fails: a status that agrees with the cached entry in
`State` and `Size` and differs in `LastErr` is not stored; the cache keeps the
earlier entry, which is not equal to the later status. -/
theorem updateVerifierStatus_keeps_earlier_entry :
    verifierStatusGet (updateVerifierStatus sampleEnv "baseOs.obj" laterStatus cachedWorld)
        (sampleEnv.formLookupKey "baseOs.obj" laterStatus.Safename) =
      some (sampleStatus "a.abc" "abc" 2 100) ∧
    sampleStatus "a.abc" "abc" 2 100 ≠ laterStatus ∧
    laterStatus.PendingAdd = false ∧ laterStatus.PendingModify = false ∧
    laterStatus.PendingDelete = false :=
  ⟨rfl, fun h => absurd (congrArg VerifyImageStatus.LastErr h) (by decide), rfl, rfl, rfl⟩

/-- C11, amended: after `updateVerifierStatus` with a status `s` without a
pending flag, the cache holds under the key of `s` an entry with the `State`
and the `Size` of `s`; the entry is `s` itself when the cache had no entry
under the key or the cached `State` or `Size` differed from those of `s`, and
it is the earlier entry otherwise. -/
theorem updateVerifierStatus_supersedes (env : Env) (objType : String) (s : VerifyImageStatus)
    (w : World)
    (hpending : s.PendingAdd = false ∧ s.PendingModify = false ∧ s.PendingDelete = false) :
    (∃ c, verifierStatusGet (updateVerifierStatus env objType s w)
        (env.formLookupKey objType s.Safename) = some c ∧ c.State = s.State ∧ c.Size = s.Size) ∧
    ((∀ c, verifierStatusGet w (env.formLookupKey objType s.Safename) = some c →
        s.State ≠ c.State ∨ s.Size ≠ c.Size) →
      verifierStatusGet (updateVerifierStatus env objType s w)
        (env.formLookupKey objType s.Safename) = some s) ∧
    (∀ c, verifierStatusGet w (env.formLookupKey objType s.Safename) = some c →
      s.State = c.State → s.Size = c.Size →
      verifierStatusGet (updateVerifierStatus env objType s w)
        (env.formLookupKey objType s.Safename) = some c) := by
  have hnew : (∀ c, verifierStatusGet w (env.formLookupKey objType s.Safename) = some c →
        s.State ≠ c.State ∨ s.Size ≠ c.Size) →
      verifierStatusGet (updateVerifierStatus env objType s w)
        (env.formLookupKey objType s.Safename) = some s := by
    intro hch
    rw [updateVerifierStatus_eq_of_changed env objType s w hpending hch]
    exact lookup_mapSet_self _ _ _
  have hold : ∀ c, verifierStatusGet w (env.formLookupKey objType s.Safename) = some c →
      s.State = c.State → s.Size = c.Size →
      verifierStatusGet (updateVerifierStatus env objType s w)
        (env.formLookupKey objType s.Safename) = some c := by
    intro c hc hstate hsize
    rw [updateVerifierStatus_eq_of_same env objType s w c hc hstate hsize]
    exact hc
  refine ⟨?_, hnew, hold⟩
  by_cases hch : ∀ c, verifierStatusGet w (env.formLookupKey objType s.Safename) = some c →
      s.State ≠ c.State ∨ s.Size ≠ c.Size
  · exact ⟨s, hnew hch, rfl, rfl⟩
  · simp only [not_forall, not_or, not_not] at hch
    obtain ⟨c, hc, hstate, hsize⟩ := hch
    exact ⟨c, hold c hc hstate hsize, hstate.symm, hsize.symm⟩

/-- Witness of C11, amended: the later status of the counterexample; the cache
keeps an entry with its state and size. -/
theorem updateVerifierStatus_supersedes_witness :
    (laterStatus.PendingAdd = false ∧ laterStatus.PendingModify = false ∧
      laterStatus.PendingDelete = false) ∧
    ∃ c, verifierStatusGet (updateVerifierStatus sampleEnv "baseOs.obj" laterStatus cachedWorld)
        (sampleEnv.formLookupKey "baseOs.obj" laterStatus.Safename) = some c ∧
      c.State = laterStatus.State ∧ c.Size = laterStatus.Size :=
  ⟨⟨rfl, rfl, rfl⟩,
    (updateVerifierStatus_supersedes sampleEnv "baseOs.obj" laterStatus cachedWorld
      ⟨rfl, rfl, rfl⟩).1⟩

/-- C20: `lookupVerificationStatusAny` returns the status stored under
`formLookupKey objType safename` whenever there is one; when there is none it
returns only a cached status whose `ImageSha256` is the digest; and it returns
the error exactly when the cache has no entry under the key and no entry with
the digest. -/
theorem lookupVerificationStatusAny_spec (env : Env) (w : World)
    (objType safename sha256 : String) :
    (∀ m, verifierStatusGet w (env.formLookupKey objType safename) = some m →
      lookupVerificationStatusAny env w objType safename sha256 = some m) ∧
    (verifierStatusGet w (env.formLookupKey objType safename) = none →
      ∀ m, lookupVerificationStatusAny env w objType safename sha256 = some m →
        m.ImageSha256 = sha256 ∧ ∃ k, (k, m) ∈ w.verifierStatusMap) ∧
    (lookupVerificationStatusAny env w objType safename sha256 = none ↔
      verifierStatusGet w (env.formLookupKey objType safename) = none ∧
        ∀ p ∈ w.verifierStatusMap, p.2.ImageSha256 ≠ sha256) := by
  refine ⟨?_, ?_, ?_⟩
  · intro m hm
    simp [lookupVerificationStatusAny, lookupVerificationStatus, hm]
  · intro hnone m hm
    simp only [lookupVerificationStatusAny, lookupVerificationStatus, hnone,
      lookupVerificationStatusSha256] at hm
    cases hf : w.verifierStatusMap.find? (fun p => p.2.ImageSha256 == sha256) with
    | none => simp [hf] at hm
    | some p =>
      rw [hf] at hm
      simp only [Option.map_some', Option.some.injEq] at hm
      subst hm
      exact ⟨by simpa using List.find?_some hf, p.1, List.mem_of_find?_eq_some hf⟩
  · cases hg : verifierStatusGet w (env.formLookupKey objType safename) with
    | some m => simp [lookupVerificationStatusAny, lookupVerificationStatus, hg]
    | none =>
      simp only [lookupVerificationStatusAny, lookupVerificationStatus, hg,
        lookupVerificationStatusSha256, Option.map_eq_none', List.find?_eq_none, true_and]
      constructor
      · intro h p hp
        simpa using h p hp
      · intro h p hp
        simpa using h p hp

/-! ## The loop of the aggregator -/

theorem list_get_length_self {α : Type} (pre : List α) : pre.get? pre.length = none := by
  induction pre with
  | nil => rfl
  | cons a l ih => exact ih

theorem list_get_append_length {α : Type} (pre : List α) (x : α) (tl : List α) :
    (pre ++ x :: tl).get? pre.length = some x := by
  induction pre with
  | nil => rfl
  | cons a l ih => exact ih

theorem list_set_append_length {α : Type} (pre : List α) (x v : α) (tl : List α) :
    (pre ++ x :: tl).set pre.length v = (pre ++ [v]) ++ tl := by
  induction pre with
  | nil => rfl
  | cons a l ih => exact congrArg (List.cons a) ih

theorem checkStorageLoop_append (env : Env) (w : World) (objType : String) :
    ∀ (config : List StorageConfig) (pre rest : List StorageStatus) (ret : RetStatus),
      checkStorageLoop env w objType pre.length config (pre ++ rest) ret =
        (aggregateItems env w objType config rest ret).map (fun r => (r.1, pre ++ r.2)) := by
  intro config
  induction config with
  | nil =>
    intro pre rest ret
    simp only [checkStorageLoop, aggregateItems, Option.map_some']
  | cons sc cs ih =>
    intro pre rest ret
    cases rest with
    | nil =>
      have hnone : (pre ++ []).get? pre.length = none := by
        rw [List.append_nil]
        exact list_get_length_self pre
      simp only [checkStorageLoop, hnone, aggregateItems, Option.map_none']
    | cons ss tl =>
      have hget : (pre ++ ss :: tl).get? pre.length = some ss := list_get_append_length pre ss tl
      have hset : ∀ v : StorageStatus, (pre ++ ss :: tl).set pre.length v = (pre ++ [v]) ++ tl :=
        fun v => list_set_append_length pre ss v tl
      have hlen : ∀ v : StorageStatus, pre.length + 1 = (pre ++ [v]).length := by
        intro v
        simp only [List.length_append, List.length_singleton]
      simp only [checkStorageLoop, hget, hset, aggregateItems]
      rw [hlen (checkStorageItem env w objType sc ss ret).2, ih]
      cases aggregateItems env w objType cs tl (checkStorageItem env w objType sc ss ret).1 with
      | none => rfl
      | some r => simp

theorem checkStorageLoop_zero (env : Env) (w : World) (objType : String)
    (config : List StorageConfig) (status : List StorageStatus) (ret : RetStatus) :
    checkStorageLoop env w objType 0 config status ret =
      aggregateItems env w objType config status ret := by
  have h := checkStorageLoop_append env w objType config [] status ret
  simp only [List.length_nil, List.nil_append] at h
  rw [h]
  cases aggregateItems env w objType config status ret with
  | none => rfl
  | some r => rfl

theorem checkStorageVerifierStatus_eq (env : Env) (w : World) (objType uuidStr : String)
    (config : List StorageConfig) (status : List StorageStatus) :
    checkStorageVerifierStatus env w objType uuidStr config status =
      (aggregateItems env w objType config status (initialRet env)).map
        (fun r => (finishRet env r.1, r.2)) := by
  unfold checkStorageVerifierStatus
  simp only [checkStorageLoop_zero]
  show (match aggregateItems env w objType config status (initialRet env) with
    | none => none
    | some (ret1, status1) =>
      if ret1.MinState = env.MAXSTATE then
        some ({ ret1 with MinState := env.DELIVERED }, status1)
      else some (ret1, status1)) = _
  cases aggregateItems env w objType config status (initialRet env) with
  | none => rfl
  | some r =>
    obtain ⟨ret1, status1⟩ := r
    simp only [Option.map_some', finishRet]
    split <;> rfl

theorem aggregateItems_isSome (env : Env) (w : World) (objType : String) :
    ∀ (config : List StorageConfig) (status : List StorageStatus) (ret : RetStatus),
      config.length ≤ status.length →
      ∃ r, aggregateItems env w objType config status ret = some r := by
  intro config
  induction config with
  | nil =>
    intro status ret _
    exact ⟨_, rfl⟩
  | cons sc cs ih =>
    intro status ret hlen
    cases status with
    | nil => exact absurd hlen (Nat.not_succ_le_zero _)
    | cons ss rest =>
      obtain ⟨r, hr⟩ := ih rest (checkStorageItem env w objType sc ss ret).1
        (Nat.le_of_succ_le_succ hlen)
      exact ⟨(r.1, (checkStorageItem env w objType sc ss ret).2 :: r.2), by
        simp only [aggregateItems, hr]⟩

theorem checkStorageItem_installed (env : Env) (w : World) (objType : String)
    (sc : StorageConfig) (ss : StorageStatus) (ret : RetStatus)
    (hinst : ss.State = env.INSTALLED) :
    checkStorageItem env w objType sc ss ret = ({ ret with MinState := ss.State }, ss) := by
  simp [checkStorageItem, hinst]

theorem checkStorageItem_missing (env : Env) (w : World) (objType : String)
    (sc : StorageConfig) (ss : StorageStatus) (ret : RetStatus)
    (hinst : ss.State ≠ env.INSTALLED) (hres : resolveItem env w objType sc = none) :
    checkStorageItem env w objType sc ss ret = ({ ret with MinState := env.DOWNLOADED }, ss) := by
  unfold resolveItem at hres
  simp [checkStorageItem, hinst, hres]

theorem checkStorageItem_found (env : Env) (w : World) (objType : String)
    (sc : StorageConfig) (ss : StorageStatus) (ret : RetStatus) (vs : VerifyImageStatus)
    (hinst : ss.State ≠ env.INSTALLED) (hres : resolveItem env w objType sc = some vs) :
    checkStorageItem env w objType sc ss ret =
      if vs.State = env.INITIAL then
        ({ Changed := true
           MinState := min ret.MinState vs.State
           AllErrors := env.appendError ret.AllErrors "verifier" vs.LastErr
           ErrorTime := vs.LastErrTime },
         { ss with State := vs.State, Error := vs.LastErr, ErrorTime := vs.LastErrTime })
      else
        ({ ret with Changed := true, MinState := min ret.MinState vs.State },
         { ss with
            State := vs.State
            ActiveFileLocation :=
              env.objectDownloadDirname ++ "/" ++ objType ++ "/" ++ vs.Safename }) := by
  unfold resolveItem at hres
  have hmin : ∀ a b : Nat, (if a > b then b else a) = min a b := by
    intro a b
    rw [Nat.min_def]
    by_cases h : a ≤ b
    · rw [if_pos h, if_neg (Nat.not_lt.2 h)]
    · rw [if_neg h, if_pos (Nat.lt_of_not_le h)]
  have hmin2 : (if ret.MinState > vs.State then ({ ret with MinState := vs.State } : RetStatus)
      else ret) = { ret with MinState := min ret.MinState vs.State } := by
    rw [← hmin]
    split <;> rfl
  simp only [checkStorageItem, hinst, if_false, hres, hmin2]
  by_cases hst : vs.State = ss.State
  · have hne : ¬ (vs.State ≠ ss.State) := fun h => h hst
    simp only [if_neg hne]
    split
    · rw [← hst]
    · rw [← hst]
  · have hne : vs.State ≠ ss.State := hst
    simp only [if_pos hne]

theorem checkStorageItem_snd_eq (env : Env) (w : World) (objType : String)
    (sc : StorageConfig) (ss : StorageStatus) (ret ret0 : RetStatus) :
    (checkStorageItem env w objType sc ss ret).2 = (checkStorageItem env w objType sc ss ret0).2 := by
  by_cases hinst : ss.State = env.INSTALLED
  · rw [checkStorageItem_installed env w objType sc ss ret hinst,
      checkStorageItem_installed env w objType sc ss ret0 hinst]
  · cases hres : resolveItem env w objType sc with
    | none =>
      rw [checkStorageItem_missing env w objType sc ss ret hinst hres,
        checkStorageItem_missing env w objType sc ss ret0 hinst hres]
    | some vs =>
      rw [checkStorageItem_found env w objType sc ss ret vs hinst hres,
        checkStorageItem_found env w objType sc ss ret0 vs hinst hres]
      split <;> rfl

theorem aggregateItems_status (env : Env) (w : World) (objType : String) :
    ∀ (config : List StorageConfig) (status : List StorageStatus) (ret : RetStatus)
      (r : RetStatus × List StorageStatus),
      aggregateItems env w objType config status ret = some r →
      (∀ (k : Nat) (sc : StorageConfig) (ss : StorageStatus),
        config[k]? = some sc → status[k]? = some ss →
        r.2[k]? = some (checkStorageItem env w objType sc ss (initialRet env)).2) ∧
      (∀ k : Nat, config.length ≤ k → r.2[k]? = status[k]?) := by
  intro config
  induction config with
  | nil =>
    intro status ret r h
    simp only [aggregateItems, Option.some.injEq] at h
    subst h
    exact ⟨fun k sc ss hc => by simp at hc, fun k _ => rfl⟩
  | cons sc cs ih =>
    intro status ret r h
    cases status with
    | nil => simp [aggregateItems] at h
    | cons ss rest =>
      simp only [aggregateItems] at h
      cases hrec : aggregateItems env w objType cs rest (checkStorageItem env w objType sc ss ret).1 with
      | none => simp [hrec] at h
      | some r1 =>
        rw [hrec] at h
        simp only [Option.some.injEq] at h
        subst h
        obtain ⟨ih1, ih2⟩ := ih rest _ r1 hrec
        constructor
        · intro k sc1 ss1 hc hs
          cases k with
          | zero =>
            simp only [List.getElem?_cons_zero, Option.some.injEq] at hc hs
            subst hc hs
            simp only [List.getElem?_cons_zero, Option.some.injEq]
            exact checkStorageItem_snd_eq env w objType _ _ _ _
          | succ j =>
            simp only [List.getElem?_cons_succ] at hc hs ⊢
            exact ih1 j sc1 ss1 hc hs
        · intro k hk
          cases k with
          | zero => exact absurd hk (Nat.not_succ_le_zero _)
          | succ j =>
            simp only [List.getElem?_cons_succ]
            exact ih2 j (Nat.le_of_succ_le_succ hk)

theorem aggregateItems_allErrors (env : Env) (w : World) (objType : String) :
    ∀ (config : List StorageConfig) (status : List StorageStatus) (ret : RetStatus)
      (r : RetStatus × List StorageStatus),
      aggregateItems env w objType config status ret = some r →
      r.1.AllErrors =
        (failedErrors env w objType config status).foldl
          (fun acc e => env.appendError acc "verifier" e) ret.AllErrors := by
  intro config
  induction config with
  | nil =>
    intro status ret r h
    simp only [aggregateItems, Option.some.injEq] at h
    subst h
    cases status <;> rfl
  | cons sc cs ih =>
    intro status ret r h
    cases status with
    | nil => simp [aggregateItems] at h
    | cons ss rest =>
      simp only [aggregateItems] at h
      cases hrec : aggregateItems env w objType cs rest (checkStorageItem env w objType sc ss ret).1 with
      | none => simp [hrec] at h
      | some r1 =>
        rw [hrec] at h
        simp only [Option.some.injEq] at h
        subst h
        have h1 := ih rest _ r1 hrec
        simp only [failedErrors, List.foldl_append]
        rw [h1]
        congr 1
        by_cases hinst : ss.State = env.INSTALLED
        · rw [checkStorageItem_installed env w objType sc ss ret hinst]
          simp [hinst]
        · cases hres : resolveItem env w objType sc with
          | none =>
            rw [checkStorageItem_missing env w objType sc ss ret hinst hres]
            simp [hinst]
          | some vs =>
            rw [checkStorageItem_found env w objType sc ss ret vs hinst hres]
            by_cases hinit : vs.State = env.INITIAL
            · simp [hinst, hinit]
            · simp [hinst, hinit]

/-! ## Properties of the aggregator -/

/-- C13: with an empty storage config list `checkStorageVerifierStatus`
returns, for every object type, object id, status cache and status slice,
`MinState` DELIVERED, `Changed` false and empty `AllErrors`, and leaves the
status slice as it is. -/
theorem checkStorageVerifierStatus_empty (env : Env) (w : World) (objType uuidStr : String)
    (status : List StorageStatus) :
    checkStorageVerifierStatus env w objType uuidStr [] status =
      some ({ Changed := false, MinState := env.DELIVERED, AllErrors := "", ErrorTime := 0 },
        status) := by
  simp [checkStorageVerifierStatus, checkStorageLoop]

/-- C14: an item whose status record is in state INSTALLED before the call
has the same record after it, in every field, whatever the status cache
holds; the call returns whenever the status slice is at least as long as the
config slice. -/
theorem checkStorageVerifierStatus_installed_untouched (env : Env) (w : World)
    (objType uuidStr : String) (config : List StorageConfig) (status : List StorageStatus)
    (hlen : config.length ≤ status.length) :
    ∃ r, checkStorageVerifierStatus env w objType uuidStr config status = some r ∧
      ∀ (k : Nat) (ss : StorageStatus), status[k]? = some ss → ss.State = env.INSTALLED →
        r.2[k]? = some ss := by
  obtain ⟨r, hr⟩ := aggregateItems_isSome env w objType config status (initialRet env) hlen
  refine ⟨(finishRet env r.1, r.2), ?_, ?_⟩
  · rw [checkStorageVerifierStatus_eq, hr]
    rfl
  · intro k ss hs hinst
    obtain ⟨h1, h2⟩ := aggregateItems_status env w objType config status _ r hr
    show r.2[k]? = some ss
    cases hc : config[k]? with
    | none =>
      rw [h2 k (List.getElem?_eq_none_iff.1 hc)]
      exact hs
    | some sc =>
      rw [h1 k sc ss hc hs, checkStorageItem_installed env w objType sc ss _ hinst]

/-- Witness of C14: the second item of the object of C1 is INSTALLED before
the call and its record is the same after it. -/
theorem checkStorageVerifierStatus_installed_untouched_witness :
    [sampleStorage, signedStorage].length ≤ (twoStatuses sampleEnv).length ∧
    ∃ r, checkStorageVerifierStatus sampleEnv (failedWorld sampleEnv "appImg.obj") "appImg.obj"
        "app1" [sampleStorage, signedStorage] (twoStatuses sampleEnv) = some r ∧
      ∀ (k : Nat) (ss : StorageStatus), (twoStatuses sampleEnv)[k]? = some ss →
        ss.State = sampleEnv.INSTALLED → r.2[k]? = some ss :=
  ⟨by decide,
    checkStorageVerifierStatus_installed_untouched sampleEnv (failedWorld sampleEnv "appImg.obj")
      "appImg.obj" "app1" [sampleStorage, signedStorage] (twoStatuses sampleEnv) (by decide)⟩

/-- C16: for every item that is not already INSTALLED and whose verifier
status is found in state INITIAL, the call sets the item's `Error` and
`ErrorTime` to the `LastErr` and `LastErrTime` of that status; the `AllErrors`
returned is `appendError` folded, from the empty string, over the `LastErr` of
all those items in item order, so no item's text is dropped and a failing
item does not stop the loop. -/
theorem checkStorageVerifierStatus_errors (env : Env) (w : World) (objType uuidStr : String)
    (config : List StorageConfig) (status : List StorageStatus)
    (hlen : config.length ≤ status.length) :
    ∃ r, checkStorageVerifierStatus env w objType uuidStr config status = some r ∧
      r.1.AllErrors =
        (failedErrors env w objType config status).foldl
          (fun acc e => env.appendError acc "verifier" e) "" ∧
      ∀ (k : Nat) (sc : StorageConfig) (ss : StorageStatus) (vs : VerifyImageStatus),
        config[k]? = some sc → status[k]? = some ss → ss.State ≠ env.INSTALLED →
        resolveItem env w objType sc = some vs → vs.State = env.INITIAL →
        ∃ ss1, r.2[k]? = some ss1 ∧ ss1.Error = vs.LastErr ∧ ss1.ErrorTime = vs.LastErrTime := by
  obtain ⟨r, hr⟩ := aggregateItems_isSome env w objType config status (initialRet env) hlen
  refine ⟨(finishRet env r.1, r.2), ?_, ?_, ?_⟩
  · rw [checkStorageVerifierStatus_eq, hr]
    rfl
  · have h := aggregateItems_allErrors env w objType config status _ r hr
    have h0 : (finishRet env r.1).AllErrors = r.1.AllErrors := by
      unfold finishRet
      split <;> rfl
    show (finishRet env r.1).AllErrors = _
    rw [h0, h]
    rfl
  · intro k sc ss vs hc hs hinst hres hinit
    obtain ⟨h1, _⟩ := aggregateItems_status env w objType config status _ r hr
    refine ⟨_, h1 k sc ss hc hs, ?_⟩
    rw [checkStorageItem_found env w objType sc ss _ vs hinst hres, if_pos hinit]
    exact ⟨rfl, rfl⟩

/-- C17: for every item that is not already INSTALLED and whose verifier
status is found in a state other than INITIAL, the call sets the item's
`ActiveFileLocation` to `objectDownloadDirname + "/" + objType + "/" +` the
`Safename` of the status found, and leaves the item's `Error` and `ErrorTime`
as they were. -/
theorem checkStorageVerifierStatus_location (env : Env) (w : World) (objType uuidStr : String)
    (config : List StorageConfig) (status : List StorageStatus)
    (hlen : config.length ≤ status.length) :
    ∃ r, checkStorageVerifierStatus env w objType uuidStr config status = some r ∧
      ∀ (k : Nat) (sc : StorageConfig) (ss : StorageStatus) (vs : VerifyImageStatus),
        config[k]? = some sc → status[k]? = some ss → ss.State ≠ env.INSTALLED →
        resolveItem env w objType sc = some vs → vs.State ≠ env.INITIAL →
        ∃ ss1, r.2[k]? = some ss1 ∧
          ss1.ActiveFileLocation =
            env.objectDownloadDirname ++ "/" ++ objType ++ "/" ++ vs.Safename ∧
          ss1.Error = ss.Error ∧ ss1.ErrorTime = ss.ErrorTime := by
  obtain ⟨r, hr⟩ := aggregateItems_isSome env w objType config status (initialRet env) hlen
  refine ⟨(finishRet env r.1, r.2), ?_, ?_⟩
  · rw [checkStorageVerifierStatus_eq, hr]
    rfl
  · intro k sc ss vs hc hs hinst hres hinit
    obtain ⟨h1, _⟩ := aggregateItems_status env w objType config status _ r hr
    refine ⟨_, h1 k sc ss hc hs, ?_⟩
    rw [checkStorageItem_found env w objType sc ss _ vs hinst hres, if_neg hinit]
    exact ⟨rfl, rfl, rfl⟩

/-- Witness of C16: both items of an object fail in the verifier; the two
error texts are appended in item order. -/
theorem checkStorageVerifierStatus_errors_witness :
    [sampleStorage, signedStorage].length ≤ pendingStatuses.length ∧
    failedErrors sampleEnv (twoItemWorld sampleEnv 1 1 "bad digest" "bad chain") "appImg.obj"
      [sampleStorage, signedStorage] pendingStatuses = ["bad digest", "bad chain"] ∧
    ∃ r, checkStorageVerifierStatus sampleEnv (twoItemWorld sampleEnv 1 1 "bad digest" "bad chain")
        "appImg.obj" "app1" [sampleStorage, signedStorage] pendingStatuses = some r ∧
      r.1.AllErrors =
        (failedErrors sampleEnv (twoItemWorld sampleEnv 1 1 "bad digest" "bad chain")
          "appImg.obj" [sampleStorage, signedStorage] pendingStatuses).foldl
          (fun acc e => sampleEnv.appendError acc "verifier" e) "" :=
  have h := checkStorageVerifierStatus_errors sampleEnv
    (twoItemWorld sampleEnv 1 1 "bad digest" "bad chain") "appImg.obj" "app1"
    [sampleStorage, signedStorage] pendingStatuses (by decide)
  ⟨by decide, by decide, h.elim fun r hr => ⟨r, hr.1, hr.2.1⟩⟩

/-- Witness of C17: the first item is delivered and the second downloaded;
both get their location from the safe name the verifier reports. -/
theorem checkStorageVerifierStatus_location_witness :
    [sampleStorage, signedStorage].length ≤ pendingStatuses.length ∧
    (checkStorageVerifierStatus sampleEnv (twoItemWorld sampleEnv 4 2 "" "") "appImg.obj" "app1"
        [sampleStorage, signedStorage] pendingStatuses).map
        (fun r => r.2.map (fun ss => ss.ActiveFileLocation)) =
      some ["/objects/appImg.obj/http://img/a.abc", "/objects/appImg.obj/http://img/b.def"] ∧
    ∃ r, checkStorageVerifierStatus sampleEnv (twoItemWorld sampleEnv 4 2 "" "") "appImg.obj"
        "app1" [sampleStorage, signedStorage] pendingStatuses = some r :=
  have h := checkStorageVerifierStatus_location sampleEnv (twoItemWorld sampleEnv 4 2 "" "")
    "appImg.obj" "app1" [sampleStorage, signedStorage] pendingStatuses (by decide)
  ⟨by decide, by decide, h.elim fun r hr => ⟨r, hr.1⟩⟩

theorem someItemResolved_cons (env : Env) (w : World) (objType : String) (sc : StorageConfig)
    (cs : List StorageConfig) (ss : StorageStatus) (rest : List StorageStatus) :
    someItemResolved env w objType (sc :: cs) (ss :: rest) ↔
      (ss.State ≠ env.INSTALLED ∧ (resolveItem env w objType sc).isSome = true) ∨
        someItemResolved env w objType cs rest := by
  constructor
  · rintro ⟨k, sc1, ss1, hc, hs, h1, h2⟩
    cases k with
    | zero =>
      simp only [List.getElem?_cons_zero, Option.some.injEq] at hc hs
      subst hc hs
      exact Or.inl ⟨h1, h2⟩
    | succ j =>
      simp only [List.getElem?_cons_succ] at hc hs
      exact Or.inr ⟨j, sc1, ss1, hc, hs, h1, h2⟩
  · rintro (⟨h1, h2⟩ | ⟨j, sc1, ss1, hc, hs, h1, h2⟩)
    · exact ⟨0, sc, ss, List.getElem?_cons_zero, List.getElem?_cons_zero, h1, h2⟩
    · exact ⟨j + 1, sc1, ss1, List.getElem?_cons_succ.trans hc,
        List.getElem?_cons_succ.trans hs, h1, h2⟩

theorem checkStorageItem_changed (env : Env) (w : World) (objType : String)
    (sc : StorageConfig) (ss : StorageStatus) (ret : RetStatus) :
    (checkStorageItem env w objType sc ss ret).1.Changed = true ↔
      ret.Changed = true ∨
        (ss.State ≠ env.INSTALLED ∧ (resolveItem env w objType sc).isSome = true) := by
  by_cases hinst : ss.State = env.INSTALLED
  · rw [checkStorageItem_installed env w objType sc ss ret hinst]
    simp [hinst]
  · cases hres : resolveItem env w objType sc with
    | none =>
      rw [checkStorageItem_missing env w objType sc ss ret hinst hres]
      simp
    | some vs =>
      rw [checkStorageItem_found env w objType sc ss ret vs hinst hres]
      split <;> simp [hinst]

theorem aggregateItems_changed (env : Env) (w : World) (objType : String) :
    ∀ (config : List StorageConfig) (status : List StorageStatus) (ret : RetStatus)
      (r : RetStatus × List StorageStatus),
      aggregateItems env w objType config status ret = some r →
      (r.1.Changed = true ↔
        ret.Changed = true ∨ someItemResolved env w objType config status) := by
  intro config
  induction config with
  | nil =>
    intro status ret r h
    simp only [aggregateItems, Option.some.injEq] at h
    subst h
    constructor
    · exact Or.inl
    · rintro (h | ⟨k, sc, ss, hc, _⟩)
      · exact h
      · simp at hc
  | cons sc cs ih =>
    intro status ret r h
    cases status with
    | nil => simp [aggregateItems] at h
    | cons ss rest =>
      simp only [aggregateItems] at h
      cases hrec : aggregateItems env w objType cs rest (checkStorageItem env w objType sc ss ret).1 with
      | none => simp [hrec] at h
      | some r1 =>
        rw [hrec] at h
        simp only [Option.some.injEq] at h
        subst h
        rw [ih rest _ r1 hrec, checkStorageItem_changed, someItemResolved_cons, or_assoc]

theorem checkStorageItem_minState_mono (env : Env) (w w1 : World) (objType : String)
    (sc : StorageConfig) (ss : StorageStatus) (ret ret1 : RetStatus)
    (hle : ResolvedLe (resolveItem env w objType sc) (resolveItem env w1 objType sc))
    (hret : ret.MinState ≤ ret1.MinState) :
    (checkStorageItem env w objType sc ss ret).1.MinState ≤
      (checkStorageItem env w1 objType sc ss ret1).1.MinState := by
  by_cases hinst : ss.State = env.INSTALLED
  · rw [checkStorageItem_installed env w objType sc ss ret hinst,
      checkStorageItem_installed env w1 objType sc ss ret1 hinst]
  · cases hres : resolveItem env w objType sc with
    | none =>
      cases hres1 : resolveItem env w1 objType sc with
      | none =>
        rw [checkStorageItem_missing env w objType sc ss ret hinst hres,
          checkStorageItem_missing env w1 objType sc ss ret1 hinst hres1]
      | some vs1 => simp [ResolvedLe, hres, hres1] at hle
    | some vs =>
      cases hres1 : resolveItem env w1 objType sc with
      | none => simp [ResolvedLe, hres, hres1] at hle
      | some vs1 =>
        have hstate : vs.State ≤ vs1.State := by simpa [ResolvedLe, hres, hres1] using hle
        have h1 : (checkStorageItem env w objType sc ss ret).1.MinState =
            min ret.MinState vs.State := by
          rw [checkStorageItem_found env w objType sc ss ret vs hinst hres]
          split <;> rfl
        have h2 : (checkStorageItem env w1 objType sc ss ret1).1.MinState =
            min ret1.MinState vs1.State := by
          rw [checkStorageItem_found env w1 objType sc ss ret1 vs1 hinst hres1]
          split <;> rfl
        rw [h1, h2]
        exact Nat.le_min.2 ⟨Nat.le_trans (Nat.min_le_left _ _) hret,
          Nat.le_trans (Nat.min_le_right _ _) hstate⟩

theorem aggregateItems_minState_mono (env : Env) (w w1 : World) (objType : String) :
    ∀ (config : List StorageConfig) (status : List StorageStatus) (ret ret1 : RetStatus)
      (r r1 : RetStatus × List StorageStatus),
      (∀ sc ∈ config, ResolvedLe (resolveItem env w objType sc) (resolveItem env w1 objType sc)) →
      ret.MinState ≤ ret1.MinState →
      aggregateItems env w objType config status ret = some r →
      aggregateItems env w1 objType config status ret1 = some r1 →
      r.1.MinState ≤ r1.1.MinState := by
  intro config
  induction config with
  | nil =>
    intro status ret ret1 r r1 _ hret h h1
    simp only [aggregateItems, Option.some.injEq] at h h1
    subst h h1
    exact hret
  | cons sc cs ih =>
    intro status ret ret1 r r1 hle hret h h1
    cases status with
    | nil => simp [aggregateItems] at h
    | cons ss rest =>
      simp only [aggregateItems] at h h1
      cases hrec : aggregateItems env w objType cs rest (checkStorageItem env w objType sc ss ret).1 with
      | none => simp [hrec] at h
      | some q =>
        cases hrec1 : aggregateItems env w1 objType cs rest
            (checkStorageItem env w1 objType sc ss ret1).1 with
        | none => simp [hrec1] at h1
        | some q1 =>
          rw [hrec] at h
          rw [hrec1] at h1
          simp only [Option.some.injEq] at h h1
          subst h h1
          exact ih rest _ _ q q1 (fun sc1 hsc1 => hle sc1 (List.mem_cons_of_mem _ hsc1))
            (checkStorageItem_minState_mono env w w1 objType sc ss ret ret1
              (hle sc (List.mem_cons_self _ _)) hret) hrec hrec1

theorem checkStorageItem_below_sentinel (env : Env) (w : World) (objType : String)
    (sc : StorageConfig) (ss : StorageStatus) (ret : RetStatus)
    (hinst : env.INSTALLED < env.MAXSTATE) (hdown : env.DOWNLOADED < env.MAXSTATE)
    (hres : ∀ vs, resolveItem env w objType sc = some vs → vs.State < env.MAXSTATE) :
    (checkStorageItem env w objType sc ss ret).1.MinState < env.MAXSTATE := by
  by_cases hi : ss.State = env.INSTALLED
  · rw [checkStorageItem_installed env w objType sc ss ret hi]
    simp only [hi]
    exact hinst
  · cases hr : resolveItem env w objType sc with
    | none =>
      rw [checkStorageItem_missing env w objType sc ss ret hi hr]
      exact hdown
    | some vs =>
      have h1 : (checkStorageItem env w objType sc ss ret).1.MinState =
          min ret.MinState vs.State := by
        rw [checkStorageItem_found env w objType sc ss ret vs hi hr]
        split <;> rfl
      rw [h1]
      exact Nat.lt_of_le_of_lt (Nat.min_le_right _ _) (hres vs hr)

theorem aggregateItems_below_sentinel (env : Env) (w : World) (objType : String)
    (hinst : env.INSTALLED < env.MAXSTATE) (hdown : env.DOWNLOADED < env.MAXSTATE) :
    ∀ (config : List StorageConfig) (status : List StorageStatus) (ret : RetStatus)
      (r : RetStatus × List StorageStatus),
      (∀ sc ∈ config, ∀ vs, resolveItem env w objType sc = some vs → vs.State < env.MAXSTATE) →
      aggregateItems env w objType config status ret = some r →
      (config ≠ [] ∨ ret.MinState < env.MAXSTATE) →
      r.1.MinState < env.MAXSTATE := by
  intro config
  induction config with
  | nil =>
    intro status ret r _ h hne
    simp only [aggregateItems, Option.some.injEq] at h
    subst h
    rcases hne with h | h
    · exact absurd rfl h
    · exact h
  | cons sc cs ih =>
    intro status ret r hres h _
    cases status with
    | nil => simp [aggregateItems] at h
    | cons ss rest =>
      simp only [aggregateItems] at h
      cases hrec : aggregateItems env w objType cs rest (checkStorageItem env w objType sc ss ret).1 with
      | none => simp [hrec] at h
      | some q =>
        rw [hrec] at h
        simp only [Option.some.injEq] at h
        subst h
        exact ih rest _ q (fun sc1 hsc1 => hres sc1 (List.mem_cons_of_mem _ hsc1)) hrec
          (Or.inr (checkStorageItem_below_sentinel env w objType sc ss ret hinst hdown
            (hres sc (List.mem_cons_self _ _))))

/-- C19 (the code departs from the claim): two items that were not handled
yet, the first found by the lookup in state INITIAL and the second in state
INSTALLED.  The first run returns `MinState` INITIAL and leaves the second
item INSTALLED; the second run, on the statuses the first run left and with
the same cache, assigns INSTALLED when it reaches the second item and returns
`MinState` INSTALLED.  The item statuses and `AllErrors` are the same after
both runs.  It holds for every numbering of the states with INITIAL below
INSTALLED and below MAXSTATE and INSTALLED different from MAXSTATE, when the
two items have different keys. -/
theorem checkStorageVerifierStatus_second_run_differs (env : Env) (uuidStr : String)
    (hkeys : env.formLookupKey "appImg.obj"
        (env.UrlToSafename signedStorage.DownloadURL signedStorage.ImageSha256) ≠
      env.formLookupKey "appImg.obj"
        (env.UrlToSafename sampleStorage.DownloadURL sampleStorage.ImageSha256))
    (hlt : env.INITIAL < env.INSTALLED) (hinit : env.INITIAL < env.MAXSTATE)
    (hmax : env.INSTALLED ≠ env.MAXSTATE) :
    ∃ r1 r2,
      checkStorageVerifierStatus env (twoItemWorld env env.INITIAL env.INSTALLED "bad digest" "")
        "appImg.obj" uuidStr [sampleStorage, signedStorage] pendingStatuses = some r1 ∧
      checkStorageVerifierStatus env (twoItemWorld env env.INITIAL env.INSTALLED "bad digest" "")
        "appImg.obj" uuidStr [sampleStorage, signedStorage] r1.2 = some r2 ∧
      r1.1.MinState = env.INITIAL ∧ r2.1.MinState = env.INSTALLED ∧
      r2.2 = r1.2 ∧ r2.1.AllErrors = r1.1.AllErrors := by
  have h0 : (0 : Nat) ≠ env.INSTALLED :=
    Nat.ne_of_lt (Nat.lt_of_le_of_lt (Nat.zero_le _) hlt)
  have hne : env.INITIAL ≠ env.INSTALLED := Nat.ne_of_lt hlt
  have hne1 : env.INSTALLED ≠ env.INITIAL := fun h => hne h.symm
  have hne2 : env.INITIAL ≠ env.MAXSTATE := Nat.ne_of_lt hinit
  have hresA : resolveItem env (twoItemWorld env env.INITIAL env.INSTALLED "bad digest" "")
      "appImg.obj" sampleStorage =
      some { sampleStatus (env.UrlToSafename sampleStorage.DownloadURL sampleStorage.ImageSha256)
        sampleStorage.ImageSha256 env.INITIAL 0 with LastErr := "bad digest" } := by
    simp [resolveItem, lookupVerificationStatusAny, lookupVerificationStatus, verifierStatusGet,
      twoItemWorld, List.lookup_cons]
  have hresB : resolveItem env (twoItemWorld env env.INITIAL env.INSTALLED "bad digest" "")
      "appImg.obj" signedStorage =
      some { sampleStatus (env.UrlToSafename signedStorage.DownloadURL signedStorage.ImageSha256)
        signedStorage.ImageSha256 env.INSTALLED 0 with LastErr := "" } := by
    have hk : (env.formLookupKey "appImg.obj"
        (env.UrlToSafename signedStorage.DownloadURL signedStorage.ImageSha256) ==
      env.formLookupKey "appImg.obj"
        (env.UrlToSafename sampleStorage.DownloadURL sampleStorage.ImageSha256)) = false := by
      simpa using hkeys
    simp [resolveItem, lookupVerificationStatusAny, lookupVerificationStatus, verifierStatusGet,
      twoItemWorld, List.lookup_cons, hk]
  have hminA : min env.MAXSTATE env.INITIAL = env.INITIAL :=
    Nat.min_eq_right (Nat.le_of_lt hinit)
  have hminB : min env.INITIAL env.INSTALLED = env.INITIAL :=
    Nat.min_eq_left (Nat.le_of_lt hlt)
  have eA : ∀ ss : StorageStatus, ss.State ≠ env.INSTALLED → ss.ActiveFileLocation = "" →
      checkStorageItem env (twoItemWorld env env.INITIAL env.INSTALLED "bad digest" "")
        "appImg.obj" sampleStorage ss (initialRet env) =
      ({ Changed := true, MinState := env.INITIAL,
         AllErrors := env.appendError "" "verifier" "bad digest", ErrorTime := 7 },
       { State := env.INITIAL, Error := "bad digest", ErrorTime := 7, ActiveFileLocation := "" }) := by
    intro ss hss hloc
    rw [checkStorageItem_found env _ "appImg.obj" sampleStorage ss (initialRet env) _ hss hresA]
    simp [sampleStatus, initialRet, hminA, hloc]
  have eB : ∀ ret : RetStatus, ret.MinState = env.INITIAL →
      checkStorageItem env (twoItemWorld env env.INITIAL env.INSTALLED "bad digest" "")
        "appImg.obj" signedStorage
        { State := 0, Error := "", ErrorTime := 0, ActiveFileLocation := "" } ret =
      ({ ret with Changed := true },
       { State := env.INSTALLED, Error := "", ErrorTime := 0,
         ActiveFileLocation := env.objectDownloadDirname ++ "/" ++ "appImg.obj" ++ "/" ++
           env.UrlToSafename signedStorage.DownloadURL signedStorage.ImageSha256 }) := by
    intro ret hret
    rw [checkStorageItem_found env _ "appImg.obj" signedStorage _ ret _ h0 hresB]
    simp only [sampleStatus, if_neg hne1, hret, hminB]
  have eB2 : ∀ (ret : RetStatus) (loc : String),
      checkStorageItem env (twoItemWorld env env.INITIAL env.INSTALLED "bad digest" "")
        "appImg.obj" signedStorage
        { State := env.INSTALLED, Error := "", ErrorTime := 0, ActiveFileLocation := loc } ret =
      ({ ret with MinState := env.INSTALLED },
       { State := env.INSTALLED, Error := "", ErrorTime := 0, ActiveFileLocation := loc }) := by
    intro ret loc
    rw [checkStorageItem_installed env _ "appImg.obj" signedStorage _ ret rfl]
  have eA0 := eA ⟨0, "", 0, ""⟩ h0 rfl
  have eA1 := eA ⟨env.INITIAL, "bad digest", 7, ""⟩ hne rfl
  have eB0 := eB ⟨true, env.INITIAL, env.appendError "" "verifier" "bad digest", 7⟩ rfl
  have run1 : checkStorageVerifierStatus env
      (twoItemWorld env env.INITIAL env.INSTALLED "bad digest" "") "appImg.obj" uuidStr
      [sampleStorage, signedStorage] pendingStatuses =
      some ({ Changed := true, MinState := env.INITIAL,
              AllErrors := env.appendError "" "verifier" "bad digest", ErrorTime := 7 },
        [{ State := env.INITIAL, Error := "bad digest", ErrorTime := 7, ActiveFileLocation := "" },
         { State := env.INSTALLED, Error := "", ErrorTime := 0,
           ActiveFileLocation := env.objectDownloadDirname ++ "/" ++ "appImg.obj" ++ "/" ++
             env.UrlToSafename signedStorage.DownloadURL signedStorage.ImageSha256 }]) := by
    rw [checkStorageVerifierStatus_eq]
    simp only [pendingStatuses, aggregateItems, eA0, eB0, Option.map_some']
    simp [finishRet, hne2]
  have run2 : checkStorageVerifierStatus env
      (twoItemWorld env env.INITIAL env.INSTALLED "bad digest" "") "appImg.obj" uuidStr
      [sampleStorage, signedStorage]
      [{ State := env.INITIAL, Error := "bad digest", ErrorTime := 7, ActiveFileLocation := "" },
       { State := env.INSTALLED, Error := "", ErrorTime := 0,
         ActiveFileLocation := env.objectDownloadDirname ++ "/" ++ "appImg.obj" ++ "/" ++
           env.UrlToSafename signedStorage.DownloadURL signedStorage.ImageSha256 }] =
      some ({ Changed := true, MinState := env.INSTALLED,
              AllErrors := env.appendError "" "verifier" "bad digest", ErrorTime := 7 },
        [{ State := env.INITIAL, Error := "bad digest", ErrorTime := 7, ActiveFileLocation := "" },
         { State := env.INSTALLED, Error := "", ErrorTime := 0,
           ActiveFileLocation := env.objectDownloadDirname ++ "/" ++ "appImg.obj" ++ "/" ++
             env.UrlToSafename signedStorage.DownloadURL signedStorage.ImageSha256 }]) := by
    rw [checkStorageVerifierStatus_eq]
    simp only [aggregateItems, eA1, eB2, Option.map_some']
    simp [finishRet, hmax]
  exact ⟨_, _, run1, run2, rfl, rfl, rfl, rfl⟩

/-- Witness of C19 at the states numbered in the spec's order: the first run
returns INITIAL (1), the second run on its statuses INSTALLED (3). -/
theorem checkStorageVerifierStatus_second_run_differs_witness :
    (checkStorageVerifierStatus sampleEnv (twoItemWorld sampleEnv 1 3 "bad digest" "")
        "appImg.obj" "app1" [sampleStorage, signedStorage] pendingStatuses).map
        (fun r => r.1.MinState) = some 1 ∧
    ((checkStorageVerifierStatus sampleEnv (twoItemWorld sampleEnv 1 3 "bad digest" "")
        "appImg.obj" "app1" [sampleStorage, signedStorage] pendingStatuses).bind
        (fun r => checkStorageVerifierStatus sampleEnv
          (twoItemWorld sampleEnv 1 3 "bad digest" "") "appImg.obj" "app1"
          [sampleStorage, signedStorage] r.2)).map (fun r => r.1.MinState) = some 3 ∧
    ∃ r1 r2,
      checkStorageVerifierStatus sampleEnv (twoItemWorld sampleEnv 1 3 "bad digest" "")
        "appImg.obj" "app1" [sampleStorage, signedStorage] pendingStatuses = some r1 ∧
      checkStorageVerifierStatus sampleEnv (twoItemWorld sampleEnv 1 3 "bad digest" "")
        "appImg.obj" "app1" [sampleStorage, signedStorage] r1.2 = some r2 ∧
      r1.1.MinState = 1 ∧ r2.1.MinState = 3 ∧ r2.2 = r1.2 ∧ r2.1.AllErrors = r1.1.AllErrors :=
  ⟨by decide, by decide,
    checkStorageVerifierStatus_second_run_differs sampleEnv "app1" (by decide) (by decide)
      (by decide) (by decide)⟩

/-! ## Errors of the certificate check, frames of the store operations -/

theorem checkCertsForObject_eq_none_of_not_missing (env : Env) (safename : String)
    (sc : StorageConfig) (h : ¬ missingCert env sc) :
    checkCertsForObject env safename sc = none := by
  unfold checkCertsForObject
  split
  · rfl
  · have hkey : (if sc.SignatureKey ≠ "" then env.stat (certFilename env sc.SignatureKey)
        else none) = none := by
      by_cases hk : sc.SignatureKey = ""
      · simp [hk]
      · rw [if_pos hk]
        by_contra hne
        exact h (Or.inl ⟨hk, hne⟩)
    rw [hkey]
    simp only
    rw [checkCertChain_eq_none_iff]
    intro u hu hne
    by_contra hs
    exact h (Or.inr ⟨u, hu, hne, hs⟩)

/-- C24: `checkCertsForObject` returns an error exactly when the signature
key is non-empty and its certificate file cannot be stat-ed, or some
non-empty entry of the certificate chain has a file that cannot be stat-ed;
with an empty signature key and only empty chain entries it returns nil
whatever `os.Stat` would answer. -/
theorem checkCertsForObject_error_iff (env : Env) (safename : String) (sc : StorageConfig) :
    (checkCertsForObject env safename sc ≠ none ↔
      (sc.SignatureKey ≠ "" ∧ env.stat (certFilename env sc.SignatureKey) ≠ none) ∨
        ∃ u ∈ sc.CertificateChain, u ≠ "" ∧ env.stat (certFilename env u) ≠ none) ∧
    (sc.SignatureKey = "" → (∀ u ∈ sc.CertificateChain, u = "") →
      ∀ stat : String → Option String,
        checkCertsForObject { env with stat := stat } safename sc = none) := by
  constructor
  · constructor
    · intro hne
      by_contra hmiss
      exact hne (checkCertsForObject_eq_none_of_not_missing env safename sc hmiss)
    · intro hmiss
      exact checkCertsForObject_ne_none_of_missing env safename sc hmiss
  · intro hkey hchain stat
    apply checkCertsForObject_eq_none_of_not_missing
    rintro (⟨hk, _⟩ | ⟨u, hu, hne, _⟩)
    · exact hk hkey
    · exact hne (hchain u hu)

/-- C30: `createVerifierConfig objType safename` leaves every config-store
entry under a key other than `formLookupKey objType safename` as it was;
`MaybeRemoveVerifierConfigSha256 objType sha` leaves every config-store entry
under a key other than `formLookupKey objType` of the `Safename` of the entry
found for `sha` as it was, and the whole state when no entry is found; neither
changes the status cache; `removeVerifierStatus` leaves every status-cache
entry under a key other than its own as it was and does not change the config
store. -/
theorem store_operations_frame (env : Env) (objType safename sha : String) (sc : StorageConfig)
    (checkCerts : Bool) (w : World) :
    ((∀ k, k ≠ env.formLookupKey objType safename →
        verifierConfigGet (createVerifierConfig env objType safename sc checkCerts w).2 k =
          verifierConfigGet w k) ∧
      (createVerifierConfig env objType safename sc checkCerts w).2.verifierStatusMap =
        w.verifierStatusMap) ∧
    ((∀ e, verifierConfigGetSha256 w sha = some e →
        ∀ k, k ≠ env.formLookupKey objType e.Safename →
          verifierConfigGet (MaybeRemoveVerifierConfigSha256 env objType sha w) k =
            verifierConfigGet w k) ∧
      (verifierConfigGetSha256 w sha = none →
        MaybeRemoveVerifierConfigSha256 env objType sha w = w) ∧
      (MaybeRemoveVerifierConfigSha256 env objType sha w).verifierStatusMap =
        w.verifierStatusMap) ∧
    ((∀ k, k ≠ env.formLookupKey objType safename →
        verifierStatusGet (removeVerifierStatus env objType safename w) k =
          verifierStatusGet w k) ∧
      (removeVerifierStatus env objType safename w).verifierConfigMap = w.verifierConfigMap) := by
  refine ⟨?_, ?_, ?_⟩
  · cases hc : (if checkCerts then checkCertsForObject env safename sc else none) with
    | some err =>
      simp [createVerifierConfig, initVerifierMaps, hc]
    | none =>
      have hcerts : checkCerts = false ∨ checkCertsForObject env safename sc = none := by
        cases checkCerts
        · exact Or.inl rfl
        · exact Or.inr (by simpa using hc)
      cases hg : verifierConfigGet w (env.formLookupKey objType safename) with
      | none =>
        rw [createVerifierConfig_eq_of_absent env objType safename sc checkCerts w hcerts hg]
        exact ⟨fun k hk => lookup_mapSet_ne _ _ _ _ hk, rfl⟩
      | some e =>
        rw [createVerifierConfig_eq_of_present env objType safename sc checkCerts w e hcerts hg]
        exact ⟨fun k hk => lookup_mapSet_ne _ _ _ _ hk, rfl⟩
  · refine ⟨?_, ?_, ?_⟩
    · intro e he k hk
      by_cases h1 : e.RefCount = 1
      · rw [MaybeRemoveVerifierConfigSha256_eq_of_last env objType sha w e he h1]
        exact lookup_mapDelete_ne _ _ _ hk
      · rw [MaybeRemoveVerifierConfigSha256_eq_of_more env objType sha w e he h1]
        exact lookup_mapSet_ne _ _ _ _ hk
    · intro hnone
      simp [MaybeRemoveVerifierConfigSha256, hnone]
    · cases he : verifierConfigGetSha256 w sha with
      | none => simp [MaybeRemoveVerifierConfigSha256, he]
      | some e =>
        by_cases h1 : e.RefCount = 1
        · rw [MaybeRemoveVerifierConfigSha256_eq_of_last env objType sha w e he h1]
        · rw [MaybeRemoveVerifierConfigSha256_eq_of_more env objType sha w e he h1]
  · unfold removeVerifierStatus verifierStatusDelete
    cases hg : verifierStatusGet w (env.formLookupKey objType safename) with
    | none => exact ⟨fun k _ => rfl, rfl⟩
    | some c => exact ⟨fun k hk => lookup_mapDelete_ne _ _ _ hk, rfl⟩

/-- C28 (the code departs from the claim): the entry found for the digest has
`RefCount` other than 1 and the config store has no entry under
`formLookupKey objType` of its `Safename`, as when the entry was created
under another object type than the one passed to the release.  The release
stores the decremented copy under the new key and leaves the entry found in
place: the store has one entry more, and the sum of the reference counts
grows by the decremented count. -/
theorem MaybeRemoveVerifierConfigSha256_adds_entry (env : Env) (objType sha : String)
    (w : World) (e : VerifyImageConfig)
    (hfound : verifierConfigGetSha256 w sha = some e)
    (hkey : verifierConfigGet w (env.formLookupKey objType e.Safename) = none)
    (hmore : e.RefCount ≠ 1) :
    (MaybeRemoveVerifierConfigSha256 env objType sha w).verifierConfigMap.length =
      w.verifierConfigMap.length + 1 ∧
    refCountSum (MaybeRemoveVerifierConfigSha256 env objType sha w) =
      refCountSum w + (e.RefCount - 1) := by
  rw [MaybeRemoveVerifierConfigSha256_eq_of_more env objType sha w e hfound hmore]
  simp only [mapSet, refCountSum]
  rw [filter_ne_eq_self hkey]
  exact ⟨rfl, Int.add_comm _ _⟩

/-- Witness of C28: an entry created for an app image and referenced three
times is released as a base-OS image; the store goes from one entry to two
and the sum of the reference counts from 3 to 5. -/
theorem MaybeRemoveVerifierConfigSha256_adds_entry_witness :
    heldWorld.verifierConfigMap.length = 1 ∧ refCountSum heldWorld = 3 ∧
    (MaybeRemoveVerifierConfigSha256 sampleEnv "baseOs.obj" "abc"
      heldWorld).verifierConfigMap.length = 1 + 1 ∧
    refCountSum (MaybeRemoveVerifierConfigSha256 sampleEnv "baseOs.obj" "abc" heldWorld) =
      3 + (3 - 1) :=
  ⟨by decide, by decide,
    MaybeRemoveVerifierConfigSha256_adds_entry sampleEnv "baseOs.obj" "abc" heldWorld
      { newVerifierConfig "a.abc" sampleStorage with RefCount := 3 } rfl rfl
      (by decide)⟩

theorem aggregateItems_append (env : Env) (w : World) (objType : String) :
    ∀ (config : List StorageConfig) (pre extra : List StorageStatus) (ret : RetStatus),
      pre.length = config.length →
      aggregateItems env w objType config (pre ++ extra) ret =
        (aggregateItems env w objType config pre ret).map (fun r => (r.1, r.2 ++ extra)) := by
  intro config
  induction config with
  | nil =>
    intro pre extra ret hlen
    have hpre : pre = [] := List.length_eq_zero.1 hlen
    subst hpre
    simp [aggregateItems]
  | cons sc cs ih =>
    intro pre extra ret hlen
    cases pre with
    | nil => exact absurd hlen.symm (Nat.succ_ne_zero _)
    | cons ss rest =>
      have hrec := ih rest extra (checkStorageItem env w objType sc ss ret).1
        (Nat.succ.inj hlen)
      simp only [List.cons_append, aggregateItems]
      show (match aggregateItems env w objType cs (rest ++ extra)
          (checkStorageItem env w objType sc ss ret).1 with
        | none => none
        | some r => some (r.1, (checkStorageItem env w objType sc ss ret).2 :: r.2)) = _
      rw [hrec]
      cases aggregateItems env w objType cs rest (checkStorageItem env w objType sc ss ret).1 with
      | none => rfl
      | some r => rfl

theorem aggregateItems_none (env : Env) (w : World) (objType : String) :
    ∀ (config : List StorageConfig) (status : List StorageStatus) (ret : RetStatus),
      status.length < config.length →
      aggregateItems env w objType config status ret = none := by
  intro config
  induction config with
  | nil =>
    intro status ret hlen
    exact absurd hlen (Nat.not_lt_zero _)
  | cons sc cs ih =>
    intro status ret hlen
    cases status with
    | nil => rfl
    | cons ss rest =>
      simp only [aggregateItems]
      rw [ih rest _ (Nat.lt_of_succ_lt_succ hlen)]

/-- C29: `checkStorageVerifierStatus` reads and writes the item-status list
only at positions below the length of the config list.  With a status list
at least as long as the config list no index is out of range: a result is
returned, the positions at or beyond the config length hold what they held,
and dropping or replacing those positions changes nothing else in the
result.  With a shorter status list the call panics. -/
theorem checkStorageVerifierStatus_index_safe (env : Env) (w : World) (objType uuidStr : String)
    (config : List StorageConfig) (status : List StorageStatus) :
    (config.length ≤ status.length →
      ∃ r, checkStorageVerifierStatus env w objType uuidStr config status = some r ∧
        ∀ k : Nat, config.length ≤ k → r.2[k]? = status[k]?) ∧
    (∀ pre extra : List StorageStatus, pre.length = config.length →
      checkStorageVerifierStatus env w objType uuidStr config (pre ++ extra) =
        (checkStorageVerifierStatus env w objType uuidStr config pre).map
          (fun r => (r.1, r.2 ++ extra))) ∧
    (status.length < config.length →
      checkStorageVerifierStatus env w objType uuidStr config status = none) := by
  refine ⟨?_, ?_, ?_⟩
  · intro hlen
    obtain ⟨r, hr⟩ := aggregateItems_isSome env w objType config status (initialRet env) hlen
    refine ⟨(finishRet env r.1, r.2), ?_, ?_⟩
    · rw [checkStorageVerifierStatus_eq, hr]
      rfl
    · exact (aggregateItems_status env w objType config status _ r hr).2
  · intro pre extra hlen
    rw [checkStorageVerifierStatus_eq, checkStorageVerifierStatus_eq,
      aggregateItems_append env w objType config pre extra _ hlen]
    cases aggregateItems env w objType config pre (initialRet env) with
    | none => rfl
    | some r => rfl
  · intro hlen
    rw [checkStorageVerifierStatus_eq, aggregateItems_none env w objType config status _ hlen]
    rfl

end Zedagent

namespace Volumemgr

/-! ## Waiting for the verifiers -/

theorem doneSignals_append (a b : List StartupEvent) :
    doneSignals (a ++ b) = doneSignals a + doneSignals b := by
  induction a with
  | nil => simp only [List.nil_append, doneSignals, Nat.zero_add]
  | cons e rest ih =>
    cases e with
    | other =>
      show doneSignals (rest ++ b) = doneSignals rest + doneSignals b
      exact ih
    | verifierRestarted scope done =>
      cases done
      · show doneSignals (rest ++ b) = doneSignals rest + doneSignals b
        exact ih
      · show doneSignals (rest ++ b) + 1 = doneSignals rest + 1 + doneSignals b
        rw [ih, Nat.add_right_comm]

theorem doneSignals_eq_sum (events : List StartupEvent) :
    doneSignals events =
      doneSignalsOf VerifierScope.appImg events + doneSignalsOf VerifierScope.baseOs events := by
  have hAB : StartupEvent.verifierRestarted VerifierScope.appImg true ≠
      StartupEvent.verifierRestarted VerifierScope.baseOs true := by decide
  induction events with
  | nil => rfl
  | cons e rest ih =>
    simp only [doneSignalsOf] at ih ⊢
    cases e with
    | other =>
      rw [List.count_cons_of_ne (by decide) rest, List.count_cons_of_ne (by decide) rest]
      exact ih
    | verifierRestarted scope done =>
      cases done
      · rw [List.count_cons_of_ne (by intro h; cases h) rest,
          List.count_cons_of_ne (by intro h; cases h) rest]
        exact ih
      · cases scope
        · rw [List.count_cons_self, List.count_cons_of_ne hAB.symm rest]
          show doneSignals rest + 1 = _
          rw [ih, Nat.add_right_comm]
        · rw [List.count_cons_of_ne hAB rest, List.count_cons_self]
          show doneSignals rest + 1 = _
          rw [ih]
          rfl

theorem verifierRestarted_processStartupEvent (ctx : volumemgrContext) (e : StartupEvent)
    (hlt : ctx.verifierRestarted < 2) :
    (processStartupEvent ctx e).verifierRestarted = ctx.verifierRestarted + doneSignals [e] := by
  cases e with
  | other => rfl
  | verifierRestarted scope done =>
    cases done
    · rfl
    · simp only [processStartupEvent, handleVerifierRestarted, doneSignals, if_true]
      apply Nat.mod_eq_of_lt
      exact Nat.lt_of_lt_of_le (Nat.add_lt_add_right hlt 1) (by decide)

theorem waitForVerifierRestarted_some (events : List StartupEvent) :
    ∀ (ctx ctx1 : volumemgrContext) (rest : List StartupEvent), ctx.verifierRestarted ≤ 2 →
      waitForVerifierRestarted events ctx = some (ctx1, rest) →
      ∃ taken, events = taken ++ rest ∧ ctx.verifierRestarted + doneSignals taken = 2 ∧
        ctx1.verifierRestarted = 2 ∧
        ∀ shorter later, taken = shorter ++ later → later ≠ [] →
          ctx.verifierRestarted + doneSignals shorter < 2 := by
  induction events with
  | nil =>
    intro ctx ctx1 rest _ h
    by_cases h2 : ctx.verifierRestarted = 2
    · simp only [waitForVerifierRestarted, h2, ne_eq, not_true_eq_false, if_false,
        Option.some.injEq, Prod.mk.injEq] at h
      obtain ⟨rfl, rfl⟩ := h
      refine ⟨[], rfl, h2, h2, ?_⟩
      intro shorter later hs hl
      have : later = [] := (List.append_eq_nil.1 hs.symm).2
      exact absurd this hl
    · simp only [waitForVerifierRestarted, ne_eq, h2, not_false_eq_true, if_true,
        reduceCtorEq] at h
  | cons e es ih =>
    intro ctx ctx1 rest hle h
    by_cases h2 : ctx.verifierRestarted = 2
    · simp only [waitForVerifierRestarted, h2, ne_eq, not_true_eq_false, if_false,
        Option.some.injEq, Prod.mk.injEq] at h
      obtain ⟨rfl, rfl⟩ := h
      refine ⟨[], rfl, h2, h2, ?_⟩
      intro shorter later hs hl
      have : later = [] := (List.append_eq_nil.1 hs.symm).2
      exact absurd this hl
    · have hlt : ctx.verifierRestarted < 2 := Nat.lt_of_le_of_ne hle h2
      simp only [waitForVerifierRestarted, ne_eq, h2, not_false_eq_true, if_true] at h
      have hstep := verifierRestarted_processStartupEvent ctx e hlt
      have hone : doneSignals [e] ≤ 1 := by
        cases e with
        | other => exact Nat.zero_le 1
        | verifierRestarted scope done =>
          cases done
          · exact Nat.zero_le 1
          · exact Nat.le_refl 1
      have hnext : (processStartupEvent ctx e).verifierRestarted ≤ 2 := by
        rw [hstep]
        exact Nat.le_trans (Nat.add_le_add_left hone _) hlt
      obtain ⟨taken, htaken, hcount, hctx1, hmin⟩ :=
        ih (processStartupEvent ctx e) ctx1 rest hnext h
      refine ⟨e :: taken, by rw [htaken]; rfl, ?_, hctx1, ?_⟩
      · have := doneSignals_append [e] taken
        simp only [List.singleton_append] at this
        rw [this, ← Nat.add_assoc, ← hstep]
        exact hcount
      · intro shorter later hs hl
        cases shorter with
        | nil => exact hlt
        | cons s0 shorter1 =>
          simp only [List.cons_append, List.cons.injEq] at hs
          obtain ⟨rfl, hs1⟩ := hs
          have h1 := hmin shorter1 later hs1 hl
          have := doneSignals_append [e] shorter1
          simp only [List.singleton_append] at this
          rw [this, ← Nat.add_assoc, ← hstep]
          exact h1

theorem waitForVerifierRestarted_none (events : List StartupEvent) :
    ∀ ctx : volumemgrContext, ctx.verifierRestarted + doneSignals events < 2 →
      waitForVerifierRestarted events ctx = none := by
  induction events with
  | nil =>
    intro ctx h
    have h2 : ctx.verifierRestarted ≠ 2 := Nat.ne_of_lt h
    simp only [waitForVerifierRestarted, ne_eq, h2, not_false_eq_true, if_true]
  | cons e es ih =>
    intro ctx h
    have hsplit := doneSignals_append [e] es
    simp only [List.singleton_append] at hsplit
    have hlt : ctx.verifierRestarted < 2 := Nat.lt_of_le_of_lt (Nat.le_add_right _ _) h
    have h2 : ctx.verifierRestarted ≠ 2 := Nat.ne_of_lt hlt
    simp only [waitForVerifierRestarted, ne_eq, h2, not_false_eq_true, if_true]
    apply ih
    rw [verifierRestarted_processStartupEvent ctx e hlt]
    rw [hsplit, ← Nat.add_assoc] at h
    exact h

/-- C22: for every `vdiskGCTime` that fits 32 bits the period `p` of the GC
ticker is `vdiskGCTime / 10` seconds by integer division, so that
`10 * p ≤ vdiskGCTime < 10 * p + 10`; the duration handed to `time.NewTicker`
is `p` seconds in nanoseconds without overflow, and it is positive, as the
ticker needs, exactly when `vdiskGCTime ≥ 10`; the default 3600 gives 360
seconds. -/
theorem gcPeriod_tenth (ctx : volumemgrContext) (hfits : ctx.vdiskGCTime < 2 ^ 32) :
    gcPeriodSeconds ctx = ctx.vdiskGCTime / 10 ∧
    10 * gcPeriodSeconds ctx ≤ ctx.vdiskGCTime ∧
    ctx.vdiskGCTime < 10 * gcPeriodSeconds ctx + 10 ∧
    gcTickerDuration ctx = (gcPeriodSeconds ctx : Int) * 1000000000 ∧
    (0 < gcTickerDuration ctx ↔ 10 ≤ ctx.vdiskGCTime) ∧
    gcPeriodSeconds initialContext = 360 := by
  have hp : gcPeriodSeconds ctx < 2 ^ 32 := Nat.lt_of_le_of_lt (Nat.div_le_self _ _) hfits
  have hdur : gcTickerDuration ctx = (gcPeriodSeconds ctx : Int) * 1000000000 := by
    have h0 : (0 : Int) ≤ (gcPeriodSeconds ctx : Int) * 1000000000 + 2 ^ 63 :=
      Int.add_nonneg (Int.mul_nonneg (Int.ofNat_nonneg _) (by decide)) (by decide)
    have h1 : (gcPeriodSeconds ctx : Int) * 1000000000 < 2 ^ 63 :=
      Int.lt_of_lt_of_le (Int.mul_lt_mul_of_pos_right (Int.ofNat_lt.2 hp) (by decide))
        (by decide)
    have h2 : (gcPeriodSeconds ctx : Int) * 1000000000 + 2 ^ 63 < 2 ^ 64 :=
      Int.lt_of_lt_of_le (Int.add_lt_add_right h1 _) (by decide)
    unfold gcTickerDuration
    rw [Int.emod_eq_of_lt h0 h2, Int.add_sub_cancel]
  refine ⟨rfl, Nat.mul_div_le _ 10, ?_, hdur, ?_, by decide⟩
  · have h := Nat.lt_mul_div_succ ctx.vdiskGCTime (by decide : 0 < 10)
    rw [Nat.mul_add, Nat.mul_one] at h
    exact h
  · rw [hdur]
    constructor
    · intro hpos
      apply Nat.le_of_not_lt
      intro hlt
      have hz : gcPeriodSeconds ctx = 0 := Nat.div_eq_of_lt hlt
      rw [hz] at hpos
      exact absurd hpos (by decide)
    · intro hge
      exact Int.mul_pos (Int.ofNat_pos.2 (Nat.div_pos hge (by decide))) (by decide)

/-- Witness of C22: the default threshold of one hour. -/
theorem gcPeriod_tenth_witness :
    initialContext.vdiskGCTime < 2 ^ 32 ∧ gcPeriodSeconds initialContext = 360 ∧
    gcTickerDuration initialContext = 360 * 1000000000 :=
  have h := gcPeriod_tenth initialContext (by decide)
  ⟨by decide, h.2.2.2.2.2, by decide⟩

end Volumemgr

namespace Containerd

/-! ## Removing a snapshot -/

theorem SnapshotRm_silent (ops : SnapshotOps) (rootPath : String) :
    SnapshotRm ops rootPath true =
      (none,
        [SnapshotStep.unmount (ops.filepathJoin rootPath containerRootfsPath),
         SnapshotStep.removeAll rootPath,
         SnapshotStep.ctrRemoveSnapshot (ops.filepathBase rootPath)]) := by
  cases h1 : ops.unmount (ops.filepathJoin rootPath containerRootfsPath) <;>
    cases h2 : ops.removeAll rootPath <;>
    cases h3 : ops.ctrRemoveSnapshot (ops.filepathBase rootPath) <;>
    simp [SnapshotRm, h1, h2, h3]

/-- C25: with `silent` set `SnapshotRm` returns nil and attempts the unmount,
the removal of the directory and the removal of the snapshot, whatever their
outcomes.  Without `silent` it returns an error exactly when one of the steps
fails: the error that wraps the error of the first failing step, after which
no later step is attempted; when no step fails it returns nil after all
three. -/
theorem SnapshotRm_spec (ops : SnapshotOps) (rootPath : String) :
    SnapshotRm ops rootPath true =
      (none,
        [SnapshotStep.unmount (ops.filepathJoin rootPath containerRootfsPath),
         SnapshotStep.removeAll rootPath,
         SnapshotStep.ctrRemoveSnapshot (ops.filepathBase rootPath)]) ∧
    ((SnapshotRm ops rootPath false).1 ≠ none ↔
      ops.unmount (ops.filepathJoin rootPath containerRootfsPath) ≠ none ∨
        ops.removeAll rootPath ≠ none ∨
        ops.ctrRemoveSnapshot (ops.filepathBase rootPath) ≠ none) ∧
    (∀ err, ops.unmount (ops.filepathJoin rootPath containerRootfsPath) = some err →
      SnapshotRm ops rootPath false =
        (some ("SnapshotRm: exception while unmounting: " ++ rootPath ++ "/" ++
            containerRootfsPath ++ ". " ++ err),
          [SnapshotStep.unmount (ops.filepathJoin rootPath containerRootfsPath)])) ∧
    (∀ err, ops.unmount (ops.filepathJoin rootPath containerRootfsPath) = none →
      ops.removeAll rootPath = some err →
      SnapshotRm ops rootPath false =
        (some ("SnapshotRm: exception while deleting: " ++ rootPath ++ ". " ++ err),
          [SnapshotStep.unmount (ops.filepathJoin rootPath containerRootfsPath),
           SnapshotStep.removeAll rootPath])) ∧
    (∀ err, ops.unmount (ops.filepathJoin rootPath containerRootfsPath) = none →
      ops.removeAll rootPath = none →
      ops.ctrRemoveSnapshot (ops.filepathBase rootPath) = some err →
      SnapshotRm ops rootPath false =
        (some ("SnapshotRm: unable to remove snapshot: " ++ ops.filepathBase rootPath ++ ". " ++
            err),
          [SnapshotStep.unmount (ops.filepathJoin rootPath containerRootfsPath),
           SnapshotStep.removeAll rootPath,
           SnapshotStep.ctrRemoveSnapshot (ops.filepathBase rootPath)])) ∧
    (ops.unmount (ops.filepathJoin rootPath containerRootfsPath) = none →
      ops.removeAll rootPath = none →
      ops.ctrRemoveSnapshot (ops.filepathBase rootPath) = none →
      SnapshotRm ops rootPath false =
        (none,
          [SnapshotStep.unmount (ops.filepathJoin rootPath containerRootfsPath),
           SnapshotStep.removeAll rootPath,
           SnapshotStep.ctrRemoveSnapshot (ops.filepathBase rootPath)])) := by
  refine ⟨SnapshotRm_silent ops rootPath, ?_, ?_, ?_, ?_, ?_⟩
  · cases h1 : ops.unmount (ops.filepathJoin rootPath containerRootfsPath) <;>
      cases h2 : ops.removeAll rootPath <;>
      cases h3 : ops.ctrRemoveSnapshot (ops.filepathBase rootPath) <;>
      simp [SnapshotRm, h1, h2, h3]
  · intro err h1
    simp [SnapshotRm, h1]
  · intro err h1 h2
    simp [SnapshotRm, h1, h2]
  · intro err h1 h2 h3
    simp [SnapshotRm, h1, h2, h3]
  · intro h1 h2 h3
    simp [SnapshotRm, h1, h2, h3]

/-! ## The files for a container in a VM -/

theorem writeMountPoints_error_of_relative (ops : FileOps) (mpFileName : String) :
    ∀ mountpoints : List String, (∃ p ∈ mountpoints, hasSlashPrefix p = false) →
      (writeMountPoints ops mpFileName mountpoints).1 ≠ none := by
  intro mountpoints
  induction mountpoints with
  | nil =>
    rintro ⟨p, hp, _⟩
    simp at hp
  | cons path rest ih =>
    rintro ⟨p, hp, hrel⟩
    by_cases habs : hasSlashPrefix path = true
    · have hrest : ∃ q ∈ rest, hasSlashPrefix q = false := by
        rcases List.mem_cons.1 hp with h | h
        · subst h
          rw [habs] at hrel
          cases hrel
        · exact ⟨p, h, hrel⟩
      simp only [writeMountPoints, habs, Bool.not_true, Bool.false_eq_true, if_false]
      cases writeFile ops mpFileName (path ++ "\n") with
      | some err => simp
      | none => exact ih hrest
    · simp [writeMountPoints, habs]

theorem writeMountPoints_ok (ops : FileOps) (mpFileName : String)
    (hwrite : ∀ content, writeFile ops mpFileName content = none) :
    ∀ mountpoints : List String, (∀ p ∈ mountpoints, hasSlashPrefix p = true) →
      (writeMountPoints ops mpFileName mountpoints).1 = none := by
  intro mountpoints
  induction mountpoints with
  | nil =>
    intro _
    rfl
  | cons path rest ih =>
    intro habs
    have h0 := habs path (List.mem_cons_self _ _)
    simp only [writeMountPoints, h0, Bool.not_true, Bool.false_eq_true, if_false, hwrite]
    exact ih (fun p hp => habs p (List.mem_cons_of_mem _ hp))

/-- C26: `createMountPointExecEnvFiles` returns an error whenever
`noOfDisks - 1`, as the code computes it, is below the number of mount points
or some mount point does not start with "/"; it returns nil when
`noOfDisks - 1` is at least the number of mount points, every mount point
starts with "/" and creating and writing the files succeeds, also when there
are more volumes than mount points.  The computed `noOfDisks - 1` is the
exact difference for every `int` above the least one. -/
theorem createMountPointExecEnvFiles_error (ops : FileOps) (containerPath : String)
    (mountpoints execpath : List String) (workdir : String) (env : List String)
    (noOfDisks : Int) :
    ((disksWithoutImage noOfDisks < (mountpoints.length : Int) ∨
        ∃ p ∈ mountpoints, hasSlashPrefix p = false) →
      (createMountPointExecEnvFiles ops containerPath mountpoints execpath workdir env
        noOfDisks).1 ≠ none) ∧
    ((mountpoints.length : Int) ≤ disksWithoutImage noOfDisks →
      (∀ p ∈ mountpoints, hasSlashPrefix p = true) →
      (∀ name, ops.create name = none) →
      (∀ name content, ops.writeString name content = none) →
      (createMountPointExecEnvFiles ops containerPath mountpoints execpath workdir env
        noOfDisks).1 = none) ∧
    (-(2 : Int) ^ 63 < noOfDisks → noOfDisks < (2 : Int) ^ 63 →
      disksWithoutImage noOfDisks = noOfDisks - 1) := by
  refine ⟨?_, ?_, ?_⟩
  · intro h
    unfold createMountPointExecEnvFiles
    by_cases hlt : disksWithoutImage noOfDisks < (mountpoints.length : Int)
    · simp [hlt]
    · have hrel : ∃ p ∈ mountpoints, hasSlashPrefix p = false := h.resolve_left hlt
      have herr := writeMountPoints_error_of_relative ops (containerPath ++ "/mountPoints")
        mountpoints hrel
      simp only [hlt, if_false]
      cases hw : writeMountPoints ops (containerPath ++ "/mountPoints") mountpoints with
      | mk e writes =>
        rw [hw] at herr
        cases e with
        | none => exact absurd rfl herr
        | some err => simp
  · intro hge habs hcreate hwrite
    have hfile : ∀ name content, writeFile ops name content = none := by
      intro name content
      simp [writeFile, hcreate, hwrite]
    have hmp := writeMountPoints_ok ops (containerPath ++ "/mountPoints")
      (hfile _) mountpoints habs
    unfold createMountPointExecEnvFiles
    have hlt : ¬ disksWithoutImage noOfDisks < (mountpoints.length : Int) := Int.not_lt.2 hge
    simp only [hlt, if_false]
    cases hw : writeMountPoints ops (containerPath ++ "/mountPoints") mountpoints with
    | mk e writes =>
      rw [hw] at hmp
      simp only at hmp
      subst hmp
      simp [hfile]
  · intro hlo hhi
    have h1 : -(2 : Int) ^ 63 + 1 ≤ noOfDisks := hlo
    have h0 : (0 : Int) ≤ noOfDisks - 1 + 2 ^ 63 :=
      Int.le_trans (by decide : (0 : Int) ≤ -(2 : Int) ^ 63 + 1 - 1 + 2 ^ 63)
        (Int.add_le_add_right (Int.sub_le_sub_right h1 1) _)
    have h2 : noOfDisks - 1 + 2 ^ 63 < 2 ^ 64 :=
      Int.lt_of_lt_of_le (Int.add_lt_add_right (Int.sub_lt_sub_right hhi 1) _) (by decide)
    unfold disksWithoutImage
    rw [Int.emod_eq_of_lt h0 h2, Int.add_sub_cancel]

/-- Witness of C26 on a file system where every create and every write
succeeds: two mount points with one volume, a relative mount point, and two
absolute mount points with three volumes. -/
theorem createMountPointExecEnvFiles_error_witness :
    (createMountPointExecEnvFiles
      { create := fun _ => none, writeString := fun _ _ => none } "/run/c1"
      ["/data", "/cache"] ["/bin/sh"] "/" ["A=\"1\""] 2).1 ≠ none ∧
    (createMountPointExecEnvFiles
      { create := fun _ => none, writeString := fun _ _ => none } "/run/c1"
      ["/data", "cache"] ["/bin/sh"] "/" ["A=\"1\""] 3).1 ≠ none ∧
    (createMountPointExecEnvFiles
      { create := fun _ => none, writeString := fun _ _ => none } "/run/c1"
      ["/data", "/cache"] ["/bin/sh"] "/" ["A=\"1\""] 4).1 = none :=
  ⟨(createMountPointExecEnvFiles_error _ "/run/c1" ["/data", "/cache"] ["/bin/sh"] "/"
      ["A=\"1\""] 2).1 (Or.inl (by decide)),
    (createMountPointExecEnvFiles_error _ "/run/c1" ["/data", "cache"] ["/bin/sh"] "/"
      ["A=\"1\""] 3).1 (Or.inr ⟨"cache", by decide, by decide⟩),
    (createMountPointExecEnvFiles_error _ "/run/c1" ["/data", "/cache"] ["/bin/sh"] "/"
      ["A=\"1\""] 4).2.1 (by decide) (by decide) (fun _ => rfl) (fun _ _ => rfl)⟩

/-! ## The container configuration -/

theorem splitChars_append_sep (sep : Char) :
    ∀ k : List Char, sep ∉ k → splitChars sep (k ++ [sep]) = [k, []] := by
  intro k
  induction k with
  | nil =>
    intro _
    simp [splitChars]
  | cons c cs ih =>
    intro hk
    have hc : c ≠ sep := fun h => hk (by simp [h])
    have hcs : sep ∉ cs := fun h => hk (List.mem_cons_of_mem _ h)
    have hrec : splitChars sep (cs ++ [sep]) = [cs, []] := ih hcs
    show splitChars sep (c :: (cs ++ [sep])) = [c :: cs, []]
    simp only [splitChars, hc, if_false, hrec]

/-- C27 (the code departs from the claim): an image env string `Key=` with an
empty value is split at "=" into the two pieces `Key` and the empty string,
so it takes the branch for `Key=Value` and becomes `Key=""`; it is not passed
through unchanged.  It holds for every key without "=". -/
theorem getContainerConfigs_empty_value (imageInfo : ImageConfig)
    (userEnvVars : List (String × String)) (key : String) (hkey : '=' ∉ key.data) :
    (getContainerConfigs { imageInfo with Env := [key ++ "="] } userEnvVars).2.2.2.1.head? =
      some (key ++ "=\"\"") ∧
    key ++ "=\"\"" ≠ key ++ "=" := by
  have hsplit : stringsSplit (key ++ "=") '=' = [key, ""] := by
    have hdata : (key ++ "=").data = key.data ++ ['='] := by
      rw [String.data_append]
    simp only [stringsSplit, hdata, splitChars_append_sep '=' key.data hkey, List.map_cons,
      List.map_nil]
  have hproc : processEnv (key ++ "=") = key ++ "=\"\"" := by
    have hq : "=\"" ++ ("" ++ "\"") = "=\"\"" := by decide
    simp only [processEnv, hsplit]
    rw [String.append_assoc, String.append_assoc, hq]
  constructor
  · simp [getContainerConfigs, hproc]
  · intro h
    have hlen := congrArg String.length h
    simp only [String.length_append] at hlen
    have h1 : "=\"\"".length = 3 := by decide
    have h2 : "=".length = 1 := by decide
    rw [h1, h2] at hlen
    exact absurd (Nat.add_left_cancel hlen) (by decide)

/-- Witness of C27: the image env string `DEBUG=` comes out as `DEBUG=""`,
next to `PATH=/bin`, which is quoted as the claim says. -/
theorem getContainerConfigs_empty_value_witness :
    getContainerConfigs
        { Volumes := ["/data"], Entrypoint := ["/bin/sh"], Cmd := ["-c", "run"],
          WorkingDir := "/", Env := ["DEBUG=", "PATH=/bin"] } [] =
      (["/data"], ["/bin/sh", "-c", "run"], "/", ["DEBUG=\"\"", "PATH=\"/bin\""], none) ∧
    (getContainerConfigs
        { Volumes := ["/data"], Entrypoint := ["/bin/sh"], Cmd := ["-c", "run"],
          WorkingDir := "/", Env := ["DEBUG" ++ "="] } []).2.2.2.1.head? =
      some ("DEBUG" ++ "=\"\"") :=
  ⟨by decide,
    (getContainerConfigs_empty_value
      { Volumes := ["/data"], Entrypoint := ["/bin/sh"], Cmd := ["-c", "run"],
        WorkingDir := "/", Env := [] } [] "DEBUG" (by decide)).1⟩

end Containerd
